import Mathlib

/-!
Verification of the MRISC32 simulator core.

A shallow embedding of the instruction interpreter of the MRISC32
simulator (`src/sim/cpu_simple.hpp`, `src/sim/ram.hpp`, the syscall
dispatcher and the CPU base class), together with theorems settling the
frozen specification claims.

Machine integers (`uint8_t`/`uint16_t`/`uint32_t`/`uint64_t`) are
modelled as `Nat` with explicit `% 2 ^ w` (or `&&& mask`) at the points
where the C++ types truncate; signed integers (`int32_t`/`int64_t`) are
modelled as `Int`.  Fallible memory accesses (which throw in C++) return
`Except fault_t`.
-/

namespace MRISC32

/-! ## Machine constants (`src/sim/cpu.hpp`) -/

def NUM_REGS : Nat := 33
def LOG2_NUM_VECTOR_ELEMENTS : Nat := 4
def NUM_VECTOR_ELEMENTS : Nat := 2 ^ LOG2_NUM_VECTOR_ELEMENTS
def NUM_VECTOR_REGS : Nat := 32

def REG_Z : Nat := 0
def REG_TP : Nat := 27
def REG_FP : Nat := 28
def REG_SP : Nat := 29
def REG_LR : Nat := 30
def REG_VL : Nat := 31
def REG_PC : Nat := 32

def EX_OP_LDI : Nat := 0x01
def EX_OP_ADDPC : Nat := 0x02
def EX_OP_ADDPCHI : Nat := 0x03
def EX_OP_OR : Nat := 0x11

def MEM_OP_NONE : Nat := 0x0
def MEM_OP_LOAD8 : Nat := 0x1
def MEM_OP_LOAD16 : Nat := 0x2
def MEM_OP_LOAD32 : Nat := 0x3
def MEM_OP_LOADU8 : Nat := 0x5
def MEM_OP_LOADU16 : Nat := 0x6
def MEM_OP_LDEA : Nat := 0x07
def MEM_OP_STORE8 : Nat := 0x9
def MEM_OP_STORE16 : Nat := 0xa
def MEM_OP_STORE32 : Nat := 0xb

/-! ## Simulated RAM (`src/sim/ram.hpp`)

`ram_t` allocates `m_size` bytes.  We model the byte store as a total
function `mem : Nat → Nat`; a write stores the value reduced to a byte
(`static_cast<uint8_t>`), a read reduces defensively (`uint8_t` cells).
The host is little-endian, so `convert_endianity` is the identity and a
16/32-bit access reads/writes consecutive bytes in little-endian order,
exactly as the `reinterpret_cast` in the C++ does.

The C++ throws `std::runtime_error` for a bad address or a bad
alignment; we model the two exception kinds with `fault_t` and the
throwing accessors with `Except fault_t`.  The checks happen before the
data is touched, hence a faulting access leaves `mem` unmodified. -/

inductive fault_t where
  | bounds : fault_t  -- throw_bad_addr
  | align : fault_t   -- throw_bad_align
deriving DecidableEq, Repr

structure ram_t where
  size : Nat          -- m_size (uint64_t)
  mem : Nat → Nat     -- m_memory (bytes)

/-- `ram_t::valid_range`: `addr_first < m_size && addr_last < m_size`,
computed in 64-bit arithmetic (no wrap-around on `addr + size - 1`). -/
def ram_t.valid_range (r : ram_t) (addr size : Nat) : Bool :=
  decide (addr < r.size) && decide (addr + size - 1 < r.size)

/-- `ram_t::check_addr`: throws `bounds` when the range is invalid. -/
def ram_t.check_addr (r : ram_t) (addr size : Nat) : Except fault_t Unit :=
  if r.valid_range addr size then .ok () else .error .bounds

/-- `ram_t::check_align`: throws `align` when `addr % size != 0`. -/
def ram_t.check_align (_r : ram_t) (addr size : Nat) : Except fault_t Unit :=
  if addr % size ≠ 0 then .error .align else .ok ()

/-- Read one byte cell (cells are `uint8_t`). -/
def ram_t.byte (r : ram_t) (addr : Nat) : Nat := r.mem addr % 256

/-- Write one byte cell. -/
def ram_t.setByte (r : ram_t) (addr v : Nat) : ram_t :=
  { r with mem := fun a => if a = addr then v % 256 else r.mem a }

/-- `ram_t::at`: checked raw byte access (used by the syscall layer). -/
def ram_t.atAddr (r : ram_t) (addr : Nat) : Except fault_t Nat := do
  r.check_addr addr 1
  pure (r.byte addr)

/-- `ram_t::load8`. -/
def ram_t.load8 (r : ram_t) (addr : Nat) : Except fault_t Nat := do
  r.check_addr addr 1
  pure (r.byte addr)

/-- `s8_as_u32`: sign-extend a byte to 32 bits. -/
def s8_as_u32 (x : Nat) : Nat :=
  if x % 256 < 128 then x % 256 else x % 256 + 0xffffff00

/-- `s16_as_u32`: sign-extend a half-word to 32 bits. -/
def s16_as_u32 (x : Nat) : Nat :=
  if x % 65536 < 32768 then x % 65536 else x % 65536 + 0xffff0000

/-- `ram_t::load8signed`. -/
def ram_t.load8signed (r : ram_t) (addr : Nat) : Except fault_t Nat := do
  let v ← r.load8 addr
  pure (s8_as_u32 v)

/-- `ram_t::store8`: `check_addr`, then `check_align` (trivial for size
1), then the byte write. -/
def ram_t.store8 (r : ram_t) (addr v : Nat) : Except fault_t ram_t := do
  r.check_addr addr 1
  r.check_align addr 1
  pure (r.setByte addr v)

/-- `ram_t::load16`: bounds check, then alignment check, then a
little-endian two-byte read. -/
def ram_t.load16 (r : ram_t) (addr : Nat) : Except fault_t Nat := do
  r.check_addr addr 2
  r.check_align addr 2
  pure (r.byte addr + 2 ^ 8 * r.byte (addr + 1))

/-- `ram_t::load16signed`. -/
def ram_t.load16signed (r : ram_t) (addr : Nat) : Except fault_t Nat := do
  let v ← r.load16 addr
  pure (s16_as_u32 v)

/-- `ram_t::store16`. -/
def ram_t.store16 (r : ram_t) (addr v : Nat) : Except fault_t ram_t := do
  r.check_addr addr 2
  r.check_align addr 2
  pure ((r.setByte addr v).setByte (addr + 1) (v / 2 ^ 8))

/-- `ram_t::load32`. -/
def ram_t.load32 (r : ram_t) (addr : Nat) : Except fault_t Nat := do
  r.check_addr addr 4
  r.check_align addr 4
  pure (r.byte addr + 2 ^ 8 * r.byte (addr + 1) + 2 ^ 16 * r.byte (addr + 2) +
    2 ^ 24 * r.byte (addr + 3))

/-- `ram_t::store32`. -/
def ram_t.store32 (r : ram_t) (addr v : Nat) : Except fault_t ram_t := do
  r.check_addr addr 4
  r.check_align addr 4
  pure ((((r.setByte addr v).setByte (addr + 1) (v / 2 ^ 8)).setByte
    (addr + 2) (v / 2 ^ 16)).setByte (addr + 3) (v / 2 ^ 24))

/-! ## Immediate decoding (`src/sim/cpu_simple.hpp`, anonymous namespace)

All three decoders take the 32-bit instruction word and produce the
32-bit immediate.  `uint32_t` values are `Nat`; shifts that can carry
past bit 31 are truncated with `% 2 ^ 32` exactly where the C++ type
truncates. -/

/-- `decode_imm15`. -/
def decode_imm15 (iword : Nat) : Nat :=
  let op_high := iword >>> (32 - 6)
  if 0x01 ≤ op_high ∧ op_high ≤ 0x0f then
    -- I15 (format C load/store)
    (iword &&& 0x00007fff) ||| (if iword &&& 0x00004000 ≠ 0 then 0xffff8000 else 0)
  else
    -- I15HL
    if iword &&& 0x00004000 ≠ 0 then
      ((iword &&& 0x00003fff) <<< 18) ||| (if iword &&& 1 ≠ 0 then 0x0003ffff else 0)
    else
      (iword &&& 0x00003fff) ||| (if iword &&& 0x00002000 ≠ 0 then 0xffffc000 else 0)

/-- `decode_imm18` (I18X4). -/
def decode_imm18 (iword : Nat) : Nat :=
  ((iword &&& 0x0003ffff) <<< 2) ||| (if iword &&& 0x00020000 ≠ 0 then 0xfff00000 else 0)

/-- `decode_imm21`: `op = (iword >> 26) - 0x30`; `op <= 4` selects
I21X4, `op == 5` selects I21H, anything else selects I21HL.  The
subtraction is `uint32_t` arithmetic (wrapping). -/
def decode_imm21 (iword : Nat) : Nat :=
  let op := ((iword >>> (32 - 6)) + 2 ^ 32 - 0x30) % 2 ^ 32
  if op ≤ 4 then
    -- I21X4
    ((iword &&& 0x1fffff) <<< 2) ||| (if iword &&& 0x100000 ≠ 0 then 0xff800000 else 0)
  else if op = 5 then
    -- I21H
    ((iword &&& 0x1fffff) <<< 11) % 2 ^ 32
  else
    -- I21HL
    if iword &&& 0x00100000 ≠ 0 then
      ((iword &&& 0x000fffff) <<< 12) ||| (if iword &&& 1 ≠ 0 then 0x00000fff else 0)
    else
      (iword &&& 0x000fffff) ||| (if iword &&& 0x00080000 ≠ 0 then 0xfff00000 else 0)

/-- `index_scale_factor`: `1 << packed_mode`. -/
def index_scale_factor (packed_mode : Nat) : Nat := 1 <<< packed_mode

/-- `actual_vector_len`: `l = min(requested_length, num_elements)`, then
halved (`l >> 1`) when folding. -/
def actual_vector_len (requested_length num_elements : Nat) (fold : Bool) : Nat :=
  let l := min requested_length num_elements
  if fold then l >>> 1 else l

/-! ## Bit-field kernels (`bf_*`, `ebf32`, `mkbf32`), 32-bit flavour
(`BITS = 5`, `T = uint32_t`) -/

/-- `bf_ctrl_width<5>`: width field in bits 8..12; 0 encodes 32. -/
def bf_ctrl_width5 (ctrl : Nat) : Nat :=
  let w := (ctrl >>> 8) &&& ((1 <<< 5) - 1)
  if w = 0 then 1 <<< 5 else w

/-- `bf_ctrl_offset<5>`: offset field in bits 0..4. -/
def bf_ctrl_offset5 (ctrl : Nat) : Nat := ctrl &&& ((1 <<< 5) - 1)

/-- `bf_full_mask<5>`. -/
def bf_full_mask5 : Nat := 0xffffffff

/-- `bf_mask<5>`. -/
def bf_mask5 (ctrl : Nat) : Nat :=
  let w := bf_ctrl_width5 ctrl
  if w = 1 <<< 5 then bf_full_mask5 else (1 <<< w) - 1

/-- `bf_sign_bit_pos<5>`. -/
def bf_sign_bit_pos5 (ctrl : Nat) : Nat := bf_ctrl_width5 ctrl - 1

/-- `static_cast<int32_t>(x) >> k` for a `uint32_t` value `x` and
`k < 32`, with the result reinterpreted as `uint32_t`: an arithmetic
shift right.  For `x < 2^31` this is a plain logical shift; otherwise
the sign fill `(2^k - 1) * 2^32` lands on bits `32..32+k-1` before the
shift, which reproduces the ones shifted in at the top. -/
def sar32 (x k : Nat) : Nat :=
  if x % 2 ^ 32 < 2 ^ 31 then (x % 2 ^ 32) >>> k
  else (x % 2 ^ 32 + (2 ^ k - 1) * 2 ^ 32) >>> k

/-- `bf_extract<5, uint32_t>`: arithmetic shift right by the offset,
mask to the field width, then replicate the field's sign bit upward
(`y | (~0 << sbit)`, truncated to 32 bits by `bf_full_mask`). -/
def bf_extract5 (x ctrl : Nat) : Nat :=
  let y := sar32 x (bf_ctrl_offset5 ctrl) &&& bf_mask5 ctrl
  let sbit := bf_sign_bit_pos5 ctrl
  if y &&& (1 <<< sbit) ≠ 0 then (y ||| (0xffffffff <<< sbit)) &&& bf_full_mask5
  else y

/-- `bf_make<5, uint32_t>`. -/
def bf_make5 (x ctrl : Nat) : Nat :=
  ((x &&& bf_mask5 ctrl) <<< bf_ctrl_offset5 ctrl) &&& bf_full_mask5

/-- `ebf32`. -/
def ebf32 (a b : Nat) : Nat := bf_extract5 a b

/-- `mkbf32`. -/
def mkbf32 (a b : Nat) : Nat := bf_make5 a b

/-! ## CRC kernels (`crc32c_8`, `crc32c_16`, `crc32c_32`) -/

/-- The 16-entry CRC-32C nibble table `CRC32C_TAB` (the C++ array has
exactly 16 entries and is only indexed with `... & 0x0f`; the catch-all
arm is unreachable). -/
def CRC32C_TAB (i : Nat) : Nat :=
  match i with
  | 0 => 0x00000000 | 1 => 0x105ec76f | 2 => 0x20bd8ede | 3 => 0x30e349b1
  | 4 => 0x417b1dbc | 5 => 0x5125dad3 | 6 => 0x61c69362 | 7 => 0x7198540d
  | 8 => 0x82f63b78 | 9 => 0x92a8fc17 | 10 => 0xa24bb5a6 | 11 => 0xb21572c9
  | 12 => 0xc38d26c4 | 13 => 0xd3d3e1ab | 14 => 0xe330a81a | 15 => 0xf36e6f75
  | _ => 0

/-- `crc32c_8`: two nibble steps. -/
def crc32c_8 (crc data : Nat) : Nat :=
  let crc1 := CRC32C_TAB ((crc ^^^ data) &&& 0x0f) ^^^ (crc >>> 4)
  CRC32C_TAB ((crc1 ^^^ (data >>> 4)) &&& 0x0f) ^^^ (crc1 >>> 4)

/-- `crc32c_16`. -/
def crc32c_16 (crc data : Nat) : Nat :=
  crc32c_8 (crc32c_8 crc data) (data >>> 8)

/-- `crc32c_32`. -/
def crc32c_32 (crc data : Nat) : Nat :=
  crc32c_8 (crc32c_8 (crc32c_8 (crc32c_8 crc data) (data >>> 8)) (data >>> 16))
    (data >>> 24)

/-! ## Saturating 32-bit multiply kernel (MULQ, `packed_mode` NONE) -/

/-- `static_cast<int32_t>(a)` for a `uint32_t` value. -/
def toInt32 (a : Nat) : Int :=
  if a % 2 ^ 32 < 2 ^ 31 then (a % 2 ^ 32 : Nat) else (a % 2 ^ 32 : Nat) - 2 ^ 32

/-- `saturate32`: clamp an `int64_t` into `[INT32_MIN, INT32_MAX]` and
reinterpret as `uint32_t` (`0x80000000` for the minimum). -/
def saturate32 (x : Int) : Nat :=
  if x > 0x7fffffff then 0x7fffffff
  else if x < -0x80000000 then 0x80000000
  else (x % 2 ^ 32).toNat

/-- `saturating_op_32`: widen both `uint32_t` operands through
`int32_t` to `int64_t`, apply the operator, saturate.  Every
intermediate fits in `int64_t`, so plain `Int` is exact. -/
def saturating_op_32 (a b : Nat) (op : Int → Int → Int) : Nat :=
  saturate32 (op (toInt32 a) (toInt32 b))

/-- The `EX_OP_MULQ` 32-bit lane: `saturating_op_32(a, b, λ x y. (x*y)
>> 31)`.  `>> 31` on `int64_t` is an arithmetic shift, i.e. flooring
division by `2^31`. -/
def mulq32 (a b : Nat) : Nat :=
  saturating_op_32 a b (fun x y => Int.fdiv (x * y) (2 ^ 31))

/-! ## MC1 MMIO cycle-counter publication (`cpu_simple_t`) -/

def MMIO_START : Nat := 0xc0000000

/-- The constructor's capture `has_mc1_mmio_regs =
m_ram.valid_range(MMIO_START, 64)`. -/
def has_mc1_mmio_regs (r : ram_t) : Bool := r.valid_range MMIO_START 64

/-- An unchecked little-endian 32-bit word write through the raw
`uint32_t*` pointer `m_mc1_mmio` (no bounds/alignment checks; the
constructor only takes the pointer when the 64-byte band is valid). -/
def ram_t.rawStore32 (r : ram_t) (addr v : Nat) : ram_t :=
  (((r.setByte addr v).setByte (addr + 1) (v / 2 ^ 8)).setByte
    (addr + 2) (v / 2 ^ 16)).setByte (addr + 3) (v / 2 ^ 24)

/-- An unchecked little-endian 32-bit word read (for observing the MMIO
band in theorems). -/
def ram_t.rawLoad32 (r : ram_t) (addr : Nat) : Nat :=
  r.byte addr + 2 ^ 8 * r.byte (addr + 1) + 2 ^ 16 * r.byte (addr + 2) +
    2 ^ 24 * r.byte (addr + 3)

/-- `cpu_simple_t::update_mc1_clkcnt`: when the MMIO band exists, write
the low half of `m_total_cycle_count` to `m_mc1_mmio[0]` and the high
half to `m_mc1_mmio[4]`.  `m_mc1_mmio` is a `uint32_t*`, so index 0 is
byte offset 0 and index 4 is byte offset 16. -/
def update_mc1_clkcnt (r : ram_t) (total_cycle_count : Nat) : ram_t :=
  if has_mc1_mmio_regs r then
    let clkcntlo := total_cycle_count % 2 ^ 32
    let clkcnthi := (total_cycle_count >>> 32) % 2 ^ 32
    (r.rawStore32 (MMIO_START + 4 * 0) clkcntlo).rawStore32
      (MMIO_START + 4 * 4) clkcnthi
  else r

/-! ## Specification-side definitions

These definitions follow the wording of the specification (not the
code); refinement claims compare them with the embedded code above. -/

/-- The fault kind of a memory access, `none` when the access
succeeded (lets theorems compare fault kinds without comparing the
memory payload). -/
def faultOf {α : Type} : Except fault_t α → Option fault_t
  | .error f => some f
  | .ok _ => none

/-- Whether a memory access succeeded. -/
def isOkAccess {α : Type} : Except fault_t α → Bool
  | .error _ => false
  | .ok _ => true

/-- Spec wording: the I21X4 immediate format, `bits[20:0] << 2`,
sign-extended. -/
def spec_imm_I21X4 (iword : Nat) : Nat :=
  ((iword &&& 0x1fffff) <<< 2) ||| (if iword &&& 0x100000 ≠ 0 then 0xff800000 else 0)

/-- Spec wording: the I21HL immediate format — the H-bit (bit 20)
selects upper or lower placement of the 20 remaining immediate bits
into the 32-bit word with the appropriate fill. -/
def spec_imm_I21HL (iword : Nat) : Nat :=
  if iword &&& 0x00100000 ≠ 0 then
    ((iword &&& 0x000fffff) <<< 12) ||| (if iword &&& 1 ≠ 0 then 0x00000fff else 0)
  else
    (iword &&& 0x000fffff) ||| (if iword &&& 0x00080000 ≠ 0 then 0xfff00000 else 0)

/-- Spec wording: the low `w` bits of `x`, sign-extended to 32 bits
(`1 ≤ w ≤ 32`). -/
def signExtendToWidth (x w : Nat) : Nat :=
  if x % 2 ^ w < 2 ^ (w - 1) then x % 2 ^ w else x % 2 ^ w + (2 ^ 32 - 2 ^ w)

/-- Spec wording for MULQ: the signed 64-bit product, arithmetically
shifted right by 31, saturated to `[INT32_MIN, INT32_MAX]`, returned as
a `uint32_t` bit pattern. -/
def mulq32_spec (a b : Nat) : Nat :=
  let q := Int.fdiv (toInt32 a * toInt32 b) (2 ^ 31)
  let clamped := max (-(2 ^ 31)) (min q (2 ^ 31 - 1))
  (clamped % 2 ^ 32).toNat

/-! ## Register files

The scalar file `m_regs` is 33 slots of `uint32_t` (R32 = PC); the
vector file `m_vregs` is 32 registers of 16 lanes.  Both are modelled
as total functions, written through explicit update helpers. -/

/-- One scalar register write, `m_regs[i] = v`. -/
def setReg (r : Nat → Nat) (i v : Nat) : Nat → Nat :=
  fun j => if j = i then v else r j

/-- One vector element write, `m_vregs[rno][idx] = v`. -/
def setVReg (vr : Nat → Nat → Nat) (rno idx v : Nat) : Nat → Nat → Nat :=
  fun a b => if a = rno ∧ b = idx then v else vr a b

/-! ## Syscall layer (`syscalls.cpp`)

`syscalls_t` holds `m_terminate`/`m_exit_code`; each `sim_*` wrapper
performs one host service.  Host results are abstracted by an oracle
record (one field per wrapper); each wrapper invocation is logged so
theorems can observe which host I/O a trap performed.  Guest-visible
effects (register writes, guest-RAM reads/writes and their faults) are
modelled exactly. -/

structure sys_state where
  terminate : Bool   -- m_terminate
  exit_code : Nat    -- m_exit_code (uint32_t)

/-- One `sim_*` host-service invocation (its guest-relevant
arguments). -/
inductive host_call where
  | putcharCall (c : Int)
  | getcharCall
  | closeCall (fd : Int)
  | fstatCall (fd : Int)
  | isattyCall (fd : Int)
  | linkCall
  | lseekCall (fd : Int) (offset whence : Int)
  | mkdirCall
  | openCall
  | readCall (fd : Int) (buf nbytes : Nat)
  | statCall
  | unlinkCall
  | writeCall (fd : Int) (buf nbytes : Nat)
  | gettimeCall
deriving DecidableEq, Repr

/-- Host-side results, one field per `sim_*` wrapper.  `readRes` is the
return value of `::read` and `readByte` the bytes it deposits in the
destination buffer. -/
structure host_oracle where
  putcharRes : Int
  getcharRes : Int
  closeRes : Int
  fstatRes : Int
  isattyRes : Int
  linkRes : Int
  lseekRes : Int
  mkdirRes : Int
  openRes : Int
  readRes : Int
  readByte : Nat → Nat
  statRes : Int
  unlinkRes : Int
  writeRes : Int
  gettimeRes : Nat
  statDev : Nat
  statIno : Nat
  statMode : Nat
  statNlink : Nat
  statUid : Nat
  statGid : Nat
  statRdev : Nat
  statSize : Nat
  statAtimeSec : Nat
  statAtimeNsec : Nat
  statMtimeSec : Nat
  statMtimeNsec : Nat
  statCtimeSec : Nat
  statCtimeNsec : Nat
  statBlksize : Nat
  statBlocks : Nat

/-- `static_cast<uint32_t>` of a host `int` result. -/
def u32ofInt (i : Int) : Nat := (i % 2 ^ 32).toNat

/-- `syscalls_t::fd_to_host`: `static_cast<int>(fd)`. -/
def fd_to_host (fd : Nat) : Int := toInt32 fd

/-- Modelled from the spec: the `routine_t` enumeration of
`syscalls.hpp` (the header is not among the sources).  §4.6 lists the
routines in the order EXIT, PUTCHAR, GETCHAR, CLOSE, FSTAT, ISATTY,
LINK, LSEEK, MKDIR, OPEN, READ, STAT, UNLINK, WRITE, GETTIMEMICROS —
the same order as the `case` arms of the dispatcher — so `LAST_`
equals 15. -/
def ROUTINE_EXIT : Nat := 0
def ROUTINE_PUTCHAR : Nat := 1
def ROUTINE_GETCHAR : Nat := 2
def ROUTINE_CLOSE : Nat := 3
def ROUTINE_FSTAT : Nat := 4
def ROUTINE_ISATTY : Nat := 5
def ROUTINE_LINK : Nat := 6
def ROUTINE_LSEEK : Nat := 7
def ROUTINE_MKDIR : Nat := 8
def ROUTINE_OPEN : Nat := 9
def ROUTINE_READ : Nat := 10
def ROUTINE_STAT : Nat := 11
def ROUTINE_UNLINK : Nat := 12
def ROUTINE_WRITE : Nat := 13
def ROUTINE_GETTIMEMICROS : Nat := 14
def ROUTINE_LAST : Nat := 15

/-- The byte walk of `syscalls_t::path_to_host`: `load8(addr++)` until
a NUL byte; the address wraps at 2^32.  Only the guest-visible
behaviour matters (the resulting string goes to the host), so the
result is `Unit`; a byte outside RAM faults exactly as the C++ throws.
The recursion is bounded by fuel; with fuel `2^32` the zero-fuel arm is
only reachable when a full 4 GiB RAM contains no NUL byte, in which
case the C++ loop never returns either. -/
def path_scan (r : ram_t) : Nat → Nat → Except fault_t Unit
  | 0, _ => .error .bounds
  | fuel + 1, a => do
    let c ← r.load8 (a % 2 ^ 32)
    if c = 0 then .ok () else path_scan r fuel (a % 2 ^ 32 + 1)

/-- `syscalls_t::path_to_host` (guest-visible part). -/
def path_to_host (r : ram_t) (addr : Nat) : Except fault_t Unit :=
  path_scan r (2 ^ 32) addr

/-- `syscalls_t::stat_to_ram` (the Linux branch): write the fixed
72-byte guest `stat` layout with checked 16/32-bit stores. -/
def stat_to_ram (o : host_oracle) (r : ram_t) (addr : Nat) : Except fault_t ram_t := do
  let r ← r.store16 ((addr + 0) % 2 ^ 32) o.statDev
  let r ← r.store16 ((addr + 2) % 2 ^ 32) o.statIno
  let r ← r.store32 ((addr + 4) % 2 ^ 32) o.statMode
  let r ← r.store16 ((addr + 8) % 2 ^ 32) o.statNlink
  let r ← r.store16 ((addr + 10) % 2 ^ 32) o.statUid
  let r ← r.store16 ((addr + 12) % 2 ^ 32) o.statGid
  let r ← r.store16 ((addr + 14) % 2 ^ 32) o.statRdev
  let r ← r.store32 ((addr + 16) % 2 ^ 32) o.statSize
  let r ← r.store32 ((addr + 20) % 2 ^ 32) (o.statAtimeSec % 2 ^ 32)
  let r ← r.store32 ((addr + 24) % 2 ^ 32) ((o.statAtimeSec >>> 32) % 2 ^ 32)
  let r ← r.store32 ((addr + 28) % 2 ^ 32) o.statAtimeNsec
  let r ← r.store32 ((addr + 32) % 2 ^ 32) (o.statMtimeSec % 2 ^ 32)
  let r ← r.store32 ((addr + 36) % 2 ^ 32) ((o.statMtimeSec >>> 32) % 2 ^ 32)
  let r ← r.store32 ((addr + 40) % 2 ^ 32) o.statMtimeNsec
  let r ← r.store32 ((addr + 44) % 2 ^ 32) (o.statCtimeSec % 2 ^ 32)
  let r ← r.store32 ((addr + 48) % 2 ^ 32) ((o.statCtimeSec >>> 32) % 2 ^ 32)
  let r ← r.store32 ((addr + 52) % 2 ^ 32) o.statCtimeNsec
  let r ← r.store32 ((addr + 56) % 2 ^ 32) o.statBlksize
  let r ← r.store32 ((addr + 60) % 2 ^ 32) o.statBlocks
  pure r

/-- Raw byte deposit of a successful host `::read` into the guest
buffer (through the unchecked `char*` obtained from `ram_t::at`). -/
def rawStoreBytes (r : ram_t) (addr : Nat) (f : Nat → Nat) : Nat → ram_t
  | 0 => r
  | n + 1 => rawStoreBytes (r.setByte addr (f 0)) (addr + 1) (fun i => f (i + 1)) n

/-- `syscalls_t::call`.  Mirrors the dispatcher case by case; out-of-
range routine numbers return immediately.  In the READ and WRITE cases
note that the failed `valid_range` check only assigns `regs[1] = -1`
and then falls through: the host call still happens (with the file
descriptor taken from the just-clobbered `regs[1]`), and
`m_ram.at(regs[2])` still performs its checked byte access. -/
def syscalls_call (o : host_oracle) (routine_no : Nat) (regs : Nat → Nat)
    (r : ram_t) (sys : sys_state) :
    Except fault_t ((Nat → Nat) × ram_t × sys_state × List host_call) :=
  if routine_no ≥ ROUTINE_LAST then
    .ok (regs, r, sys, [])
  else if routine_no = ROUTINE_EXIT then
    .ok (regs, r, { terminate := true, exit_code := regs 1 % 2 ^ 32 }, [])
  else if routine_no = ROUTINE_PUTCHAR then
    .ok (setReg regs 1 (u32ofInt o.putcharRes), r, sys, [.putcharCall (toInt32 (regs 1))])
  else if routine_no = ROUTINE_GETCHAR then
    .ok (setReg regs 1 (u32ofInt o.getcharRes), r, sys, [.getcharCall])
  else if routine_no = ROUTINE_CLOSE then
    -- sim_close returns 0 for fds 0..2 without touching the host fd.
    let fd := fd_to_host (regs 1)
    let res := if 0 ≤ fd ∧ fd ≤ 2 then (0 : Int) else o.closeRes
    .ok (setReg regs 1 (u32ofInt res), r, sys, [.closeCall fd])
  else if routine_no = ROUTINE_FSTAT then do
    let fd := fd_to_host (regs 1)
    let regs1 := setReg regs 1 (u32ofInt o.fstatRes)
    let ram1 ← stat_to_ram o r (regs 2)
    .ok (regs1, ram1, sys, [.fstatCall fd])
  else if routine_no = ROUTINE_ISATTY then
    .ok (setReg regs 1 (u32ofInt o.isattyRes), r, sys, [.isattyCall (fd_to_host (regs 1))])
  else if routine_no = ROUTINE_LINK then do
    path_to_host r (regs 1)
    path_to_host r (regs 2)
    .ok (setReg regs 1 (u32ofInt o.linkRes), r, sys, [.linkCall])
  else if routine_no = ROUTINE_LSEEK then
    .ok (setReg regs 1 (u32ofInt o.lseekRes), r, sys,
      [.lseekCall (fd_to_host (regs 1)) (toInt32 (regs 2)) (toInt32 (regs 3))])
  else if routine_no = ROUTINE_MKDIR then do
    path_to_host r (regs 1)
    .ok (setReg regs 1 (u32ofInt o.mkdirRes), r, sys, [.mkdirCall])
  else if routine_no = ROUTINE_OPEN then do
    path_to_host r (regs 1)
    .ok (setReg regs 1 (u32ofInt o.openRes), r, sys, [.openCall])
  else if routine_no = ROUTINE_READ then do
    let regs1 := if ¬ r.valid_range (regs 2) (regs 3) then setReg regs 1 0xffffffff else regs
    let fd := fd_to_host (regs1 1)          -- reads the possibly clobbered R1
    let _ ← r.atAddr (regs1 2)              -- char* buf = &m_ram.at(regs[2])
    let nbytes := regs1 3
    -- A successful ::read deposits its result count of bytes.
    let ram1 := if 0 ≤ o.readRes then rawStoreBytes r (regs1 2) o.readByte o.readRes.toNat else r
    .ok (setReg regs1 1 (u32ofInt o.readRes), ram1, sys, [.readCall fd (regs1 2) nbytes])
  else if routine_no = ROUTINE_STAT then do
    path_to_host r (regs 1)
    let regs1 := setReg regs 1 (u32ofInt o.statRes)
    let ram1 ← stat_to_ram o r (regs 2)
    .ok (regs1, ram1, sys, [.statCall])
  else if routine_no = ROUTINE_UNLINK then do
    path_to_host r (regs 1)
    .ok (setReg regs 1 (u32ofInt o.unlinkRes), r, sys, [.unlinkCall])
  else if routine_no = ROUTINE_WRITE then do
    let regs1 := if ¬ r.valid_range (regs 2) (regs 3) then setReg regs 1 0xffffffff else regs
    let fd := fd_to_host (regs1 1)          -- reads the possibly clobbered R1
    let _ ← r.atAddr (regs1 2)              -- const char* buf = &m_ram.at(regs[2])
    let nbytes := regs1 3
    .ok (setReg regs1 1 (u32ofInt o.writeRes), r, sys, [.writeCall fd (regs1 2) nbytes])
  else
    -- routine_no = ROUTINE_GETTIMEMICROS (the only remaining value < 15)
    let t := o.gettimeRes
    .ok (setReg (setReg regs 1 (t % 2 ^ 32)) 2 ((t >>> 32) % 2 ^ 32), r, sys, [.gettimeCall])

/-! ## Instruction decode (`cpu_simple_t::run`, IF/ID block) -/

/-- Class B: `(iword & 0xFC00007C) == 0x0000007C`. -/
def op_class_B (iword : Nat) : Bool := (iword &&& 0xfc00007c) == 0x0000007c

/-- Class A: `(iword & 0xFC000000) == 0` and not class B. -/
def op_class_A (iword : Nat) : Bool :=
  ((iword &&& 0xfc000000) == 0) && !(op_class_B iword)

/-- Class E: `(iword & 0xFC000000) == 0xDC000000`. -/
def op_class_E (iword : Nat) : Bool := (iword &&& 0xfc000000) == 0xdc000000

/-- Class D: `(iword & 0xE0000000) == 0xC0000000` and not class E. -/
def op_class_D (iword : Nat) : Bool :=
  ((iword &&& 0xe0000000) == 0xc0000000) && !(op_class_E iword)

/-- Class C: anything that is not A, B, D or E. -/
def op_class_C (iword : Nat) : Bool :=
  !(op_class_A iword) && !(op_class_B iword) && !(op_class_D iword) && !(op_class_E iword)

/-- `vec_mask`: class A uses both vector-mode bits, classes B and C one,
others none. -/
def vec_mask (iword : Nat) : Nat :=
  if op_class_A iword then 3 else if op_class_B iword || op_class_C iword then 2 else 0

/-- `vector_mode = (iword >> 14) & vec_mask`. -/
def vector_mode (iword : Nat) : Nat := (iword >>> 14) &&& vec_mask iword

/-- `is_vector_op`. -/
def is_vector_op (iword : Nat) : Bool := vector_mode iword ≠ 0

/-- `is_folding_vector_op`. -/
def is_folding_vector_op (iword : Nat) : Bool := vector_mode iword == 1

/-- `packed_mode` for classes A/B. -/
def packed_mode_of (iword : Nat) : Nat :=
  if op_class_A iword || op_class_B iword then (iword &&& 0x00000180) >>> 7 else 0

/-- `reg1 = bits[25:21]`. -/
def reg1of (iword : Nat) : Nat := (iword >>> 21) &&& 31

/-- `reg2 = bits[20:16]`. -/
def reg2of (iword : Nat) : Nat := (iword >>> 16) &&& 31

/-- `reg3 = bits[14:10]` (the code shifts by 9). -/
def reg3of (iword : Nat) : Nat := (iword >>> 9) &&& 31

/-- `is_bcc`. -/
def is_bcc (iword : Nat) : Bool := (iword &&& 0xfc000000) == 0xdc000000

/-- `is_j`. -/
def is_j (iword : Nat) : Bool := (iword &&& 0xf8000000) == 0xc0000000

/-- `is_subroutine_branch`. -/
def is_subroutine_branch (iword : Nat) : Bool := (iword &&& 0xfc000000) == 0xc4000000

/-- `is_branch`. -/
def is_branch (iword : Nat) : Bool := is_bcc iword || is_j iword

/-- `is_ldx`. -/
def is_ldx (iword : Nat) : Bool :=
  ((iword &&& 0xfc000078) == 0) && ((iword &&& 0x00000007) != 0)

/-- `is_ld`. -/
def is_ld (iword : Nat) : Bool :=
  ((iword &&& 0xe0000000) == 0) && ((iword &&& 0x1c000000) != 0)

/-- `is_ldwpc`. -/
def is_ldwpc (iword : Nat) : Bool := (iword &&& 0xfc000000) == 0xc8000000

/-- `is_mem_load`. -/
def is_mem_load (iword : Nat) : Bool := is_ldx iword || is_ld iword || is_ldwpc iword

/-- `is_stx`. -/
def is_stx (iword : Nat) : Bool := (iword &&& 0xfc000078) == 0x00000008

/-- `is_st`. -/
def is_st (iword : Nat) : Bool := (iword &&& 0xe0000000) == 0x20000000

/-- `is_stwpc`. -/
def is_stwpc (iword : Nat) : Bool := (iword &&& 0xfc000000) == 0xcc000000

/-- `is_mem_store`. -/
def is_mem_store (iword : Nat) : Bool := is_stx iword || is_st iword || is_stwpc iword

/-- `is_mem_op`. -/
def is_mem_op (iword : Nat) : Bool := is_mem_load iword || is_mem_store iword

/-- `is_addpc_addpchi`. -/
def is_addpc_addpchi (iword : Nat) : Bool := (iword &&& 0xf8000000) == 0xd0000000

/-- `reg1_is_dst`: reg1 is the destination except for stores and
branches. -/
def reg1_is_dst (iword : Nat) : Bool := !(is_mem_store iword || is_branch iword)

/-- Destination register number: reg1, or R0 (the zero register) when
reg1 is not a destination. -/
def dst_reg_no (iword : Nat) : Nat := if reg1_is_dst iword then reg1of iword else REG_Z

/-- Source register A: the PC slot for LDWPC/STWPC/ADDPC/ADDPCHI,
otherwise reg2. -/
def src_reg_a_no (iword : Nat) : Nat :=
  if is_ldwpc iword || is_stwpc iword || is_addpc_addpchi iword then REG_PC else reg2of iword

/-- EX-operation resolution by class. -/
def ex_op_of (iword : Nat) : Nat :=
  if op_class_A iword ∧ (iword &&& 0x000001f0) ≠ 0 then iword &&& 0x0000007f
  else if op_class_B iword then ((iword >>> 1) &&& 0x00003f00) ||| (iword &&& 0x0000007f)
  else if op_class_C iword ∧ (iword &&& 0xc0000000) ≠ 0 then iword >>> 26
  else if op_class_D iword then
    match (iword >>> 26) &&& 7 with
    | 4 => EX_OP_ADDPC
    | 5 => EX_OP_ADDPCHI
    | 6 => EX_OP_LDI
    | _ => EX_OP_OR
  else EX_OP_OR

/-- MEM-operation resolution. -/
def mem_op_of (iword : Nat) : Nat :=
  if is_mem_op iword then
    if is_ldwpc iword then MEM_OP_LOAD32
    else if is_stwpc iword then MEM_OP_STORE32
    else if op_class_A iword then iword &&& 0x0000007f
    else iword >>> 26
  else MEM_OP_NONE

structure reg_id_t where
  no : Nat
  is_vector : Bool

structure decode_t where
  src_imm : Nat
  src_b_is_imm : Bool
  src_b_is_stride : Bool
  src_reg_a : reg_id_t
  src_reg_b : reg_id_t
  src_reg_c : reg_id_t
  dst_reg : reg_id_t
  ex_op : Nat
  packed_mode : Nat
  mem_op : Nat

/-- The full decode output of the IF/ID block (the `decode_t` fields
the EX stage consumes).  Vector tagging: reg1 (C) is vector for any
vector op, reg2 (A) only for non-memory vector ops, reg3 (B) when the
low vector-mode bit is set. -/
def decodeInstr (iword : Nat) : decode_t :=
  { src_imm := if op_class_C iword then decode_imm15 iword else decode_imm21 iword
    src_b_is_imm := op_class_C iword || op_class_D iword
    src_b_is_stride :=
      is_vector_op iword && is_mem_op iword && !(vector_mode iword &&& 1 ≠ 0 : Bool)
    src_reg_a := ⟨src_reg_a_no iword, is_vector_op iword && !(is_mem_op iword)⟩
    src_reg_b := ⟨reg3of iword, vector_mode iword &&& 1 ≠ 0⟩
    src_reg_c := ⟨reg1of iword, is_vector_op iword⟩
    dst_reg := ⟨dst_reg_no iword, is_vector_op iword⟩
    ex_op := ex_op_of iword
    packed_mode := packed_mode_of iword
    mem_op := mem_op_of iword }

/-- The b[cc] condition evaluation (condition field bits[20:18] of the
iword, tested against `m_regs[reg1]`). -/
def branch_taken (iword v : Nat) : Bool :=
  match (iword >>> 18) &&& 0x00000007 with
  | 0 => v == 0
  | 1 => v != 0
  | 2 => v == 0xffffffff
  | 3 => v != 0xffffffff
  | 4 => (v &&& 0x80000000) != 0
  | 5 => (v &&& 0x80000000) == 0
  | 6 => ((v &&& 0x80000000) != 0) || (v == 0)
  | 7 => ((v &&& 0x80000000) == 0) && (v != 0)
  | _ => false  -- unreachable: the field is three bits

/-- The branch-handling block: computes `next_pc` and performs the
implicit LR write of a subroutine branch.  All PC arithmetic is
`uint32_t`. -/
def branchStep (regs : Nat → Nat) (pc iword : Nat) : Nat × (Nat → Nat) :=
  if is_bcc iword then
    ((if branch_taken iword (regs (reg1of iword)) then (pc + decode_imm18 iword) % 2 ^ 32
      else (pc + 4) % 2 ^ 32), regs)
  else if is_j iword then
    let base_address := if reg1of iword = 31 then pc else regs (reg1of iword)
    ((base_address + decode_imm21 iword) % 2 ^ 32,
     if is_subroutine_branch iword then setReg regs REG_LR ((pc + 4) % 2 ^ 32) else regs)
  else ((pc + 4) % 2 ^ 32, regs)

structure vector_state_t where
  vector_len : Nat
  stride : Nat
  addr_offset : Nat
  is_vector_op : Bool
  folding : Bool

/-- The vector-state initialization of the ID stage.  For a scalar
instruction the C++ leaves the previous fields in place, but none of
them is ever read while `is_vector_op` is false (the loop runs once and
no operand selects them), so they are cleared here. -/
def vecInitOf (iword : Nat) (regs : Nat → Nat) : vector_state_t :=
  if is_vector_op iword then
    { vector_len :=
        actual_vector_len (regs REG_VL) NUM_VECTOR_ELEMENTS (is_folding_vector_op iword)
      stride := if op_class_C iword then decode_imm15 iword else regs (reg3of iword)
      addr_offset := 0
      is_vector_op := true
      folding := is_folding_vector_op iword }
  else
    { vector_len := 0, stride := 0, addr_offset := 0, is_vector_op := false, folding := false }

/-! ## The interpreter cycle (`cpu_simple_t::run`) -/

structure mach_state where
  regs : Nat → Nat
  vregs : Nat → Nat → Nat
  ram : ram_t
  sys : sys_state
  total_cycle_count : Nat
  fetched_instr_count : Nat
  terminate_requested : Bool

/-- `cpu_t::reset` zeroes both register files; run-state flags are
cleared. -/
def resetState (r : ram_t) : mach_state :=
  { regs := fun _ => 0, vregs := fun _ _ => 0, ram := r
    sys := ⟨false, 0⟩, total_cycle_count := 0, fetched_instr_count := 0
    terminate_requested := false }

/-- `static_cast<int64_t>` of a `uint64_t` cycle count. -/
def toInt64 (n : Nat) : Int :=
  if n % 2 ^ 64 < 2 ^ 63 then (n % 2 ^ 64 : Nat) else (n % 2 ^ 64 : Nat) - 2 ^ 64

/-- The source operands and lane index of one executed lane (what the
register-read stage produced). -/
structure lane_rec where
  vec_idx : Nat
  src_a : Nat
  src_b : Nat
  src_c : Nat
deriving DecidableEq, Repr

/-- The EX-operation catalogue is abstracted as an oracle: a pure
function of the decoded `ex_op`, `packed_mode`, the `xchgsr` Z-register
flag (`src_reg_a.no == REG_Z`) and the three source operands.  Every
kernel of the catalogue (including `xchgsr`, whose system-register
writes are currently no-ops) is such a function; theorems below hold
for every oracle. -/
def ExOracle : Type := Nat → Nat → Bool → Nat → Nat → Nat → Nat

/-- The MEM stage: dispatch on `mem_op`, returning the (possibly
updated) RAM and the load result. -/
def memStage (r : ram_t) (mem_op ex_result src_c : Nat) : Except fault_t (ram_t × Nat) :=
  if mem_op = MEM_OP_LOAD8 then do let v ← r.load8signed ex_result; pure (r, v)
  else if mem_op = MEM_OP_LOADU8 then do let v ← r.load8 ex_result; pure (r, v)
  else if mem_op = MEM_OP_LOAD16 then do let v ← r.load16signed ex_result; pure (r, v)
  else if mem_op = MEM_OP_LOADU16 then do let v ← r.load16 ex_result; pure (r, v)
  else if mem_op = MEM_OP_LOAD32 then do let v ← r.load32 ex_result; pure (r, v)
  else if mem_op = MEM_OP_LDEA then pure (r, ex_result)
  else if mem_op = MEM_OP_STORE8 then do let r1 ← r.store8 ex_result src_c; pure (r1, 0)
  else if mem_op = MEM_OP_STORE16 then do let r1 ← r.store16 ex_result src_c; pure (r1, 0)
  else if mem_op = MEM_OP_STORE32 then do let r1 ← r.store32 ex_result src_c; pure (r1, 0)
  else pure (r, 0)

/-- One lane of the vector loop: register read (with the folding upper-
half addressing of operand A), operand select, EX (the AGU for memory
operations, the oracle otherwise), MEM, WB (suppressed for destination
R0; vector destinations write lane `vec_idx`). -/
def laneStep (exf : ExOracle) (d : decode_t) (v : vector_state_t) (vec_idx : Nat)
    (st : mach_state) : Except fault_t (mach_state × lane_rec) := do
  let reg_a_data :=
    if d.src_reg_a.is_vector then
      st.vregs d.src_reg_a.no (if v.folding then v.vector_len + vec_idx else vec_idx)
    else st.regs d.src_reg_a.no
  let reg_b_data :=
    if d.src_reg_b.is_vector then st.vregs d.src_reg_b.no vec_idx else st.regs d.src_reg_b.no
  let reg_c_data :=
    if d.src_reg_c.is_vector then st.vregs d.src_reg_c.no vec_idx else st.regs d.src_reg_c.no
  let src_a := reg_a_data
  let src_b :=
    if d.src_b_is_stride then v.addr_offset
    else if d.src_b_is_imm then d.src_imm else reg_b_data
  let src_c := reg_c_data
  let ex_result :=
    if d.mem_op ≠ MEM_OP_NONE then
      (src_a + src_b * index_scale_factor d.packed_mode) % 2 ^ 32
    else exf d.ex_op d.packed_mode (d.src_reg_a.no == REG_Z) src_a src_b src_c
  let (ram1, mem_result) ← memStage st.ram d.mem_op ex_result src_c
  let st := { st with ram := ram1 }
  let st :=
    if d.dst_reg.no ≠ REG_Z then
      let dst_data := if d.mem_op ≠ MEM_OP_NONE then mem_result else ex_result
      if d.dst_reg.is_vector then
        { st with vregs := setVReg st.vregs d.dst_reg.no vec_idx dst_data }
      else { st with regs := setReg st.regs d.dst_reg.no dst_data }
    else st
  pure (st, ⟨vec_idx, src_a, src_b, src_c⟩)

/-- The vector loop: run `budget` lanes starting at `vec_idx`, chaining
the per-lane `addr_offset += stride`, the cycle counter, the max-cycles
termination check and the MC1 cycle-counter MMIO update.  Returns the
final state and the executed lanes in order. -/
def laneLoop (exf : ExOracle) (max_cycles : Int) (d : decode_t) :
    vector_state_t → Nat → Nat → mach_state → Except fault_t (mach_state × List lane_rec)
  | _, _, 0, st => .ok (st, [])
  | v, vec_idx, budget + 1, st => do
    let (st1, lrec) ← laneStep exf d v vec_idx st
    let v1 := { v with addr_offset := (v.addr_offset + v.stride) % 2 ^ 32 }
    let st2 := { st1 with total_cycle_count := (st1.total_cycle_count + 1) % 2 ^ 64 }
    if max_cycles ≥ 0 ∧ toInt64 st2.total_cycle_count ≥ max_cycles then
      .ok ({ st2 with terminate_requested := true }, [lrec])
    else
      let st3 := { st2 with ram := update_mc1_clkcnt st2.ram st2.total_cycle_count }
      match laneLoop exf max_cycles d v1 (vec_idx + 1) budget st3 with
      | .ok (st4, recs) => .ok (st4, lrec :: recs)
      | .error f => .error f

/-- The simulator-routine (syscall trap) check at the top of the
instruction cycle: when the PC lies anywhere in the top 64 KiB band
`0xFFFF....`, dispatch routine `(PC - 0xFFFF0000) >> 2` on the scalar
file and then simulate `jmp lr` by replacing the PC slot with LR. -/
def trapStep (o : host_oracle) (st : mach_state) :
    Except fault_t (mach_state × List host_call) :=
  if (st.regs REG_PC) &&& 0xffff0000 == 0xffff0000 then do
    let routine_no := ((st.regs REG_PC % 2 ^ 32 + 2 ^ 32 - 0xffff0000) % 2 ^ 32) >>> 2
    let (regs1, ram1, sys1, log) ← syscalls_call o routine_no st.regs st.ram st.sys
    .ok ({ st with regs := setReg regs1 REG_PC (regs1 REG_LR), ram := ram1, sys := sys1 }, log)
  else .ok (st, [])

structure cycle_result where
  st : mach_state
  fetch_addr : Nat
  iword : Nat
  next_pc : Nat
  lanes : List lane_rec
  host_log : List host_call

/-- One iteration of the interpreter `while` loop: trap check, fetch,
decode + branch pre-compute (with the implicit LR write), vector-state
initialization, the vector loop, and the final PC update.  Profiling
and debug-trace emission are external collaborators with no
machine-visible state and are omitted. -/
def cycleStep (o : host_oracle) (exf : ExOracle) (max_cycles : Int) (st0 : mach_state) :
    Except fault_t cycle_result := do
  let (st1, log) ← trapStep o st0
  -- IF/ID
  let pc := st1.regs REG_PC
  let iword ← st1.ram.load32 pc
  let st1 := { st1 with fetched_instr_count := (st1.fetched_instr_count + 1) % 2 ^ 64 }
  let (next_pc, regs2) := branchStep st1.regs pc iword
  let st2 := { st1 with regs := regs2 }
  let d := decodeInstr iword
  let v := vecInitOf iword st2.regs
  let num_vector_loops := if v.is_vector_op then v.vector_len else 1
  let (st3, lanes) ← laneLoop exf max_cycles d v 0 num_vector_loops st2
  let st4 := { st3 with regs := setReg st3.regs REG_PC next_pc }
  pure ⟨st4, pc, iword, next_pc, lanes, log⟩

/-! ## Concrete example inputs

Small closed machine configurations used to evaluate the embedding at
specific points (counterexamples and witnesses). -/

/-- All-zero RAM of a given size. -/
def ramZero (n : Nat) : ram_t := ⟨n, fun _ => 0⟩

/-- A host oracle whose services all return 0, except `::read`, which
fails (returns −1), as it does on the invalid file descriptor the READ
trap produces after clobbering R1. -/
def oracle0 : host_oracle :=
  { putcharRes := 0, getcharRes := 0, closeRes := 0, fstatRes := 0, isattyRes := 0,
    linkRes := 0, lseekRes := 0, mkdirRes := 0, openRes := 0, readRes := -1,
    readByte := fun _ => 0, statRes := 0, unlinkRes := 0, writeRes := 0, gettimeRes := 0,
    statDev := 0, statIno := 0, statMode := 0, statNlink := 0, statUid := 0, statGid := 0,
    statRdev := 0, statSize := 0, statAtimeSec := 0, statAtimeNsec := 0, statMtimeSec := 0,
    statMtimeNsec := 0, statCtimeSec := 0, statCtimeNsec := 0, statBlksize := 0,
    statBlocks := 0 }

/-- An EX oracle returning 0 for every kernel. -/
def exf0 : ExOracle := fun _ _ _ _ _ _ => 0

/-- The instruction word `ADD V1, V2, V3` in folding vector mode:
class A, opcode 0x16, reg1 = 1, reg2 = 2, reg3 = 3, vector-mode bits
[15:14] = 01. -/
def IWORD_FOLD_ADD : Nat := 0x224616

/-- A state about to execute `IWORD_FOLD_ADD` at PC 0 with VL = 4 and
distinguishable elements in source vector register V2: element 2 holds
`0xAA`, element 4 holds `0xBB`. -/
def stFold : mach_state :=
  { resetState (⟨0x104, fun a => if a = 0 then 0x16 else if a = 1 then 0x46
      else if a = 2 then 0x22 else 0⟩ : ram_t) with
    regs := fun j => if j = 31 then 4 else 0
    vregs := fun r e => if r = 2 ∧ e = 2 then 0xAA else if r = 2 ∧ e = 4 then 0xBB else 0 }

/-- A state whose PC sits in the trap band (`0xFFFF003C`, routine index
15, one past the last routine) with LR = 0x100 pointing into RAM. -/
def stTrap : mach_state :=
  { resetState (ramZero 0x104) with
    regs := fun j => if j = 32 then 0xffff003c else if j = 30 then 0x100 else 0 }

/-- A state for a plain scalar cycle: all registers zero (PC = 0), a
zeroed RAM (iword 0 decodes to a class A OR with destination R0). -/
def stZero : mach_state := resetState (ramZero 0x104)

/-! ## Helper lemmas -/

/-- Right shift distributes over bitwise and. -/
theorem shiftRight_land (a b k : Nat) : (a &&& b) >>> k = (a >>> k) &&& (b >>> k) := by
  apply Nat.eq_of_testBit_eq
  intro i
  simp [Nat.testBit_and, Nat.testBit_shiftRight]

/-- `valid_range` is exactly `addr + size ≤ m_size` for nonempty
accesses. -/
theorem valid_range_iff (r : ram_t) (a s : Nat) (hs : 0 < s) :
    r.valid_range a s = decide (a + s ≤ r.size) := by
  unfold ram_t.valid_range
  by_cases h : a + s ≤ r.size
  · simp [h, show a < r.size by omega, show a + s - 1 < r.size by omega]
  · by_cases h1 : a < r.size
    · simp [h, h1, show ¬(a + s - 1 < r.size) by omega]
    · simp [h, h1]

/-- Masking with `0xffff` first does not change a nibble taken at bit
offset `k` with `k + 4 ≤ 16`. -/
theorem and_mask16_nibble (d k : Nat) (hk : k + 4 ≤ 16) :
    ((d &&& 0xffff) >>> k) &&& 0xf = (d >>> k) &&& 0xf := by
  have h4 : (0xf : Nat) = 2 ^ 4 - 1 := rfl
  have h16 : (0xffff : Nat) = 2 ^ 16 - 1 := rfl
  apply Nat.eq_of_testBit_eq
  intro i
  simp only [h4, h16, Nat.testBit_and, Nat.testBit_shiftRight, Nat.testBit_two_pow_sub_one]
  by_cases hi : i < 4
  · have hki : k + i < 16 := by omega
    simp [hi, hki]
  · simp [hi]

/-- `crc32c_8` only looks at the low byte of its data argument. -/
theorem xor_land_mask_congr {d1 d2 : Nat} (c : Nat) (h : d1 &&& 0xf = d2 &&& 0xf) :
    (c ^^^ d1) &&& 0xf = (c ^^^ d2) &&& 0xf := by
  have hf : ∀ i : Nat, Nat.testBit 0xf i = decide (i < 4) := by
    intro i
    rw [show (0xf : Nat) = 2 ^ 4 - 1 from rfl, Nat.testBit_two_pow_sub_one]
  have hb : ∀ i, i < 4 → d1.testBit i = d2.testBit i := by
    intro i hi
    have hcongr := congrArg (fun n => Nat.testBit n i) h
    simp only [Nat.testBit_and, hf] at hcongr
    simpa [hi] using hcongr
  apply Nat.eq_of_testBit_eq
  intro i
  simp only [Nat.testBit_and, Nat.testBit_xor, hf]
  by_cases hi : i < 4
  · rw [hb i hi]
  · simp [hi]

theorem crc32c_8_congr (s : Nat) {d1 d2 : Nat} (h4 : d1 &&& 0xf = d2 &&& 0xf)
    (h44 : (d1 >>> 4) &&& 0xf = (d2 >>> 4) &&& 0xf) : crc32c_8 s d1 = crc32c_8 s d2 := by
  have e1 : (s ^^^ d1) &&& 0xf = (s ^^^ d2) &&& 0xf := xor_land_mask_congr s h4
  have e2 : ∀ c : Nat, (c ^^^ (d1 >>> 4)) &&& 0xf = (c ^^^ (d2 >>> 4)) &&& 0xf :=
    fun c => xor_land_mask_congr c h44
  simp only [crc32c_8, e1, e2]

/-! ## C8 — CRC32C word/half-word compositionality -/

/-- C8: for every CRC state `s` and 32-bit data word, the word kernel
`crc32c_32(s, data)` equals two applications of the half-word kernel,
`crc32c_16(crc32c_16(s, data & 0xFFFF), data >> 16)`. -/
theorem c8_crc32c_compositionality (s data : Nat) :
    crc32c_32 s data = crc32c_16 (crc32c_16 s (data &&& 0xffff)) (data >>> 16) := by
  unfold crc32c_32 crc32c_16
  have h1 : crc32c_8 s (data &&& 0xffff) = crc32c_8 s data := by
    apply crc32c_8_congr
    · have := and_mask16_nibble data 0 (by omega)
      simpa using this
    · exact and_mask16_nibble data 4 (by omega)
  rw [h1]
  have h2 : crc32c_8 (crc32c_8 s data) ((data &&& 0xffff) >>> 8) =
      crc32c_8 (crc32c_8 s data) (data >>> 8) := by
    apply crc32c_8_congr
    · exact and_mask16_nibble data 8 (by omega)
    · rw [show ((data &&& 0xffff) >>> 8) >>> 4 = (data &&& 0xffff) >>> 12 from
        (Nat.shiftRight_add _ 8 4).symm,
        show (data >>> 8) >>> 4 = data >>> 12 from (Nat.shiftRight_add _ 8 4).symm]
      exact and_mask16_nibble data 12 (by omega)
  rw [h2]
  rw [show (data >>> 16) >>> 8 = data >>> 24 from (Nat.shiftRight_add _ 16 8).symm]

/-! ## C9 — MULQ fixed-point multiply -/

/-- The code's `saturate32` if-chain agrees with clamping into
`[INT32_MIN, INT32_MAX]` followed by the two's-complement wrap. -/
theorem saturate32_eq_clamp (q : Int) :
    saturate32 q = ((max (-(2 ^ 31)) (min q (2 ^ 31 - 1)) % 2 ^ 32).toNat) := by
  unfold saturate32
  have e32 : (2 : Int) ^ 32 = 4294967296 := by norm_num
  have e31 : (2 : Int) ^ 31 = 2147483648 := by norm_num
  rw [e32, e31]
  simp only [Int.max_def, Int.min_def]
  split_ifs <;> omega

/-- C9: the 32-bit MULQ kernel computes the signed 64-bit product
arithmetically shifted right by 31 and saturated to the signed 32-bit
range; in particular `MULQ(0x80000000, 0x80000000) = 0x7FFFFFFF`. -/
theorem c9_mulq_saturating :
    (∀ a b : Nat, mulq32 a b = mulq32_spec a b) ∧
    mulq32 0x80000000 0x80000000 = 0x7fffffff := by
  constructor
  · intro a b
    unfold mulq32 mulq32_spec saturating_op_32
    exact saturate32_eq_clamp _
  · decide

/-! ## C3 — memory fault discipline -/

/-- C3 counterexample: the claim as stated says a misaligned access
raises an alignment fault, but at an address that is both misaligned
and out of bounds (address 5, size-2 store, 4-byte RAM) the code
checks `check_addr` first and raises a bounds fault. -/
theorem c3_claim_counterexample :
    (5 % 2 ≠ 0) ∧
    faultOf ((⟨4, fun _ => 0⟩ : ram_t).store16 5 0) = some fault_t.bounds ∧
    some fault_t.bounds ≠ some fault_t.align := by
  decide

/-- C3 (amended): each accessor checks bounds first (`a + s > RAM_SIZE`
raises a bounds fault even when also misaligned), then alignment
(`a % s ≠ 0` raises an alignment fault), and an access satisfying both
preconditions succeeds; the checks precede the data access, so a
faulting access returns only the fault and leaves memory untouched
(byte accesses can never be misaligned). -/
theorem c3_memory_fault_order_amended (r : ram_t) (a v : Nat) :
    (r.load8 a = if a + 1 > r.size then .error .bounds else .ok (r.byte a)) ∧
    (r.store8 a v = if a + 1 > r.size then .error .bounds else .ok (r.setByte a v)) ∧
    (r.load16 a = if a + 2 > r.size then .error .bounds
      else if a % 2 ≠ 0 then .error .align
      else .ok (r.byte a + 2 ^ 8 * r.byte (a + 1))) ∧
    (r.store16 a v = if a + 2 > r.size then .error .bounds
      else if a % 2 ≠ 0 then .error .align
      else .ok ((r.setByte a v).setByte (a + 1) (v / 2 ^ 8))) ∧
    (r.load32 a = if a + 4 > r.size then .error .bounds
      else if a % 4 ≠ 0 then .error .align
      else .ok (r.byte a + 2 ^ 8 * r.byte (a + 1) + 2 ^ 16 * r.byte (a + 2) +
        2 ^ 24 * r.byte (a + 3))) ∧
    (r.store32 a v = if a + 4 > r.size then .error .bounds
      else if a % 4 ≠ 0 then .error .align
      else .ok ((((r.setByte a v).setByte (a + 1) (v / 2 ^ 8)).setByte
        (a + 2) (v / 2 ^ 16)).setByte (a + 3) (v / 2 ^ 24))) := by
  refine ⟨?_, ?_, ?_, ?_, ?_, ?_⟩
  · unfold ram_t.load8 ram_t.check_addr
    rw [valid_range_iff _ _ _ (by omega)]
    by_cases h : a + 1 ≤ r.size
    · simp [h, show ¬(a + 1 > r.size) by omega, Bind.bind, Except.bind, Pure.pure, Except.pure]
    · simp [h, show a + 1 > r.size by omega, Bind.bind, Except.bind]
  · unfold ram_t.store8 ram_t.check_addr ram_t.check_align
    rw [valid_range_iff _ _ _ (by omega)]
    by_cases h : a + 1 ≤ r.size
    · simp [h, show ¬(a + 1 > r.size) by omega, Nat.mod_one, Bind.bind, Except.bind,
        Pure.pure, Except.pure]
    · simp [h, show a + 1 > r.size by omega, Bind.bind, Except.bind]
  · unfold ram_t.load16 ram_t.check_addr ram_t.check_align
    rw [valid_range_iff _ _ _ (by omega)]
    by_cases h : a + 2 ≤ r.size
    · by_cases h2 : a % 2 = 0 <;>
        simp [h, h2, show ¬(a + 2 > r.size) by omega, Bind.bind, Except.bind, Pure.pure,
          Except.pure]
    · simp [h, show a + 2 > r.size by omega, Bind.bind, Except.bind]
  · unfold ram_t.store16 ram_t.check_addr ram_t.check_align
    rw [valid_range_iff _ _ _ (by omega)]
    by_cases h : a + 2 ≤ r.size
    · by_cases h2 : a % 2 = 0 <;>
        simp [h, h2, show ¬(a + 2 > r.size) by omega, Bind.bind, Except.bind, Pure.pure,
          Except.pure]
    · simp [h, show a + 2 > r.size by omega, Bind.bind, Except.bind]
  · unfold ram_t.load32 ram_t.check_addr ram_t.check_align
    rw [valid_range_iff _ _ _ (by omega)]
    by_cases h : a + 4 ≤ r.size
    · by_cases h2 : a % 4 = 0 <;>
        simp [h, h2, show ¬(a + 4 > r.size) by omega, Bind.bind, Except.bind, Pure.pure,
          Except.pure]
    · simp [h, show a + 4 > r.size by omega, Bind.bind, Except.bind]
  · unfold ram_t.store32 ram_t.check_addr ram_t.check_align
    rw [valid_range_iff _ _ _ (by omega)]
    by_cases h : a + 4 ≤ r.size
    · by_cases h2 : a % 4 = 0 <;>
        simp [h, h2, show ¬(a + 4 > r.size) by omega, Bind.bind, Except.bind, Pure.pure,
          Except.pure]
    · simp [h, show a + 4 > r.size by omega, Bind.bind, Except.bind]

/-! ## C5 — MC1 cycle-counter MMIO words -/

/-- C5: with RAM covering the MMIO band, publishing the cycle counter
`0x100000005` writes the low half (5) at byte offset 0 as the claim
says, but the high half (1) lands at byte offset 16 (`m_mc1_mmio[4]` on
a `uint32_t*`), not at the CLKCNTHI word at byte offset 4, which stays
0 — the code contradicts its own `CLKCNTHI` comment and the fixed MMIO
layout. -/
theorem c5_clkcnthi_offset_bug :
    has_mc1_mmio_regs ⟨0xc0000040, fun _ => 0⟩ = true ∧
    (update_mc1_clkcnt ⟨0xc0000040, fun _ => 0⟩ (2 ^ 32 + 5)).rawLoad32 0xc0000000 = 5 ∧
    (update_mc1_clkcnt ⟨0xc0000040, fun _ => 0⟩ (2 ^ 32 + 5)).rawLoad32 0xc0000004 = 0 ∧
    (update_mc1_clkcnt ⟨0xc0000040, fun _ => 0⟩ (2 ^ 32 + 5)).rawLoad32 0xc0000010 = 1 := by
  decide

/-! ## C6 — ADDPC immediate format -/

/-- C6 counterexample: `0xD0100000` is a class D word with op
bits[28:26] = 4 (ADDPC) and H-bit (bit 20) set; the decoder produces
the I21X4 value `0xFFC00000`, not the I21HL value `0`. -/
theorem c6_claim_counterexample :
    op_class_D 0xd0100000 = true ∧
    (0xd0100000 >>> 26) &&& 7 = 4 ∧
    decode_imm21 0xd0100000 = 0xffc00000 ∧
    spec_imm_I21HL 0xd0100000 = 0 ∧
    decode_imm21 0xd0100000 ≠ spec_imm_I21HL 0xd0100000 := by
  decide

/-- C6 (amended): for every class D instruction word with op
bits[28:26] = 4 (ADDPC), the decoder produces the I21X4 immediate —
`bits[20:0] << 2`, sign-extended — while I21HL is used for LDI. -/
theorem c6_addpc_imm_format_amended (iword : Nat) (h32 : iword < 2 ^ 32)
    (hD : op_class_D iword = true) (hop : (iword >>> 26) &&& 7 = 4) :
    decode_imm21 iword = spec_imm_I21X4 iword := by
  have ht : iword >>> 26 = 0x34 := by
    have hlt : iword >>> 26 < 64 := by
      rw [Nat.shiftRight_eq_div_pow]
      omega
    have hmod : (iword >>> 26) % 8 = 4 := by
      rw [← Nat.and_pow_two_sub_one_eq_mod _ 3]
      exact hop
    have hDe : iword &&& 0xe0000000 = 0xc0000000 := by
      simp only [op_class_D, Bool.and_eq_true, beq_iff_eq, Bool.not_eq_eq_eq_not] at hD
      exact hD.1
    have hhi : (iword >>> 29) &&& 7 = 6 := by
      have := congrArg (fun n => n >>> 29) hDe
      simpa [shiftRight_land] using this
    have hdiv : (iword >>> 26) / 8 = iword >>> 29 := by
      rw [Nat.shiftRight_eq_div_pow, Nat.shiftRight_eq_div_pow, Nat.div_div_eq_div_mul]
    have hhi6 : (iword >>> 29) % 8 = 6 := by
      rw [← Nat.and_pow_two_sub_one_eq_mod _ 3]
      exact hhi
    omega
  unfold decode_imm21 spec_imm_I21X4
  rw [ht]
  norm_num

/-- C6 witness: the amended theorem instantiated at `0xD0100000`. -/
theorem c6_witness : decode_imm21 0xd0100000 = spec_imm_I21X4 0xd0100000 :=
  c6_addpc_imm_format_amended 0xd0100000 (by decide) (by decide) (by decide)

/-! ## C7 — bit-field round-trip -/

theorem bf_width_bounds (c : Nat) : 1 ≤ bf_ctrl_width5 c ∧ bf_ctrl_width5 c ≤ 32 := by
  unfold bf_ctrl_width5
  have h31 : ((1 : Nat) <<< 5) - 1 = 31 := rfl
  have h32 : ((1 : Nat) <<< 5) = 32 := rfl
  rw [h31, h32]
  have hle : (c >>> 8) &&& 31 ≤ 31 := Nat.and_le_right
  by_cases hz : (c >>> 8) &&& 31 = 0
  · simp [hz]
  · rw [if_neg hz]
    omega

theorem bf_offset_le (c : Nat) : bf_ctrl_offset5 c ≤ 31 := by
  unfold bf_ctrl_offset5
  have hle : c &&& 31 ≤ 31 := Nat.and_le_right
  simpa using hle

theorem bf_mask5_eq (c : Nat) : bf_mask5 c = 2 ^ bf_ctrl_width5 c - 1 := by
  unfold bf_mask5 bf_full_mask5
  by_cases hz : bf_ctrl_width5 c = 1 <<< 5
  · rw [if_pos hz, hz, show ((1 : Nat) <<< 5) = 32 from rfl]
    norm_num
  · rw [if_neg hz, Nat.shiftLeft_eq, one_mul]

/-- C7 counterexample: control word `c = 1` encodes offset 1 and width
32 (width field 0 means full width), so the claim's hypothesis "width at
most 32" holds; yet `ebf32(mkbf32(0x80000000, 1), 1) = 0`, while the low
32 bits of `0x80000000` sign-extended are `0x80000000` — the round-trip
law fails because offset + width exceeds 32 and `mkbf` drops the top
bit of the field. -/
theorem c7_claim_counterexample :
    bf_ctrl_width5 1 = 32 ∧
    ebf32 (mkbf32 0x80000000 1) 1 = 0 ∧
    signExtendToWidth 0x80000000 (bf_ctrl_width5 1) = 0x80000000 ∧
    (0 : Nat) ≠ 0x80000000 := by
  decide

/-- C7 (amended): for every value `x` and control word `c` with
offset(c) + width(c) ≤ 32, `ebf32(mkbf32(x, c), c)` equals the low
width(c) bits of `x` sign-extended to 32 bits. -/
theorem c7_bitfield_roundtrip_amended (x c : Nat)
    (h : bf_ctrl_offset5 c + bf_ctrl_width5 c ≤ 32) :
    ebf32 (mkbf32 x c) c = signExtendToWidth x (bf_ctrl_width5 c) := by
  obtain ⟨hw1, hw32⟩ := bf_width_bounds c
  have ho := bf_offset_le c
  set o := bf_ctrl_offset5 c with hodef
  set w := bf_ctrl_width5 c with hwdef
  set m := x % 2 ^ w with hmdef
  have hm : m < 2 ^ w := Nat.mod_lt _ (Nat.two_pow_pos w)
  have hpow_le : 2 ^ (w + o) ≤ 2 ^ 32 := Nat.pow_le_pow_right (by norm_num) (by omega)
  have hbound : m * 2 ^ o < 2 ^ 32 := by
    calc m * 2 ^ o < 2 ^ w * 2 ^ o :=
          (Nat.mul_lt_mul_right (Nat.two_pow_pos o)).mpr hm
      _ = 2 ^ (w + o) := (pow_add 2 w o).symm
      _ ≤ 2 ^ 32 := hpow_le
  have hmk : mkbf32 x c = m * 2 ^ o := by
    unfold mkbf32 bf_make5 bf_full_mask5
    rw [bf_mask5_eq, ← hwdef, ← hodef, Nat.and_pow_two_sub_one_eq_mod, ← hmdef,
      Nat.shiftLeft_eq,
      show (0xffffffff : Nat) = 2 ^ 32 - 1 by norm_num,
      Nat.and_pow_two_sub_one_eq_mod, Nat.mod_eq_of_lt hbound]
  have hy : sar32 (m * 2 ^ o) o &&& (2 ^ w - 1) = m := by
    unfold sar32
    rw [Nat.mod_eq_of_lt hbound]
    by_cases hbig : m * 2 ^ o < 2 ^ 31
    · rw [if_pos hbig, Nat.shiftRight_eq_div_pow,
        Nat.mul_div_cancel _ (Nat.two_pow_pos o),
        Nat.and_pow_two_sub_one_eq_mod, Nat.mod_eq_of_lt hm]
    · rw [if_neg hbig, Nat.shiftRight_eq_div_pow]
      have hsplit : (2 : Nat) ^ 32 = 2 ^ o * 2 ^ (32 - o) := by
        rw [← pow_add]
        congr 1
        omega
      have hnum : m * 2 ^ o + (2 ^ o - 1) * 2 ^ 32 =
          2 ^ o * (m + (2 ^ o - 1) * 2 ^ (32 - o)) := by
        rw [hsplit]
        ring
      rw [hnum, Nat.mul_div_cancel_left _ (Nat.two_pow_pos o),
        Nat.and_pow_two_sub_one_eq_mod]
      rw [show (32 : Nat) - o = w + (32 - o - w) by omega, pow_add,
        show (2 ^ o - 1) * (2 ^ w * 2 ^ (32 - o - w)) =
          (2 ^ o - 1) * 2 ^ (32 - o - w) * 2 ^ w by ring,
        Nat.add_mul_mod_self_right, Nat.mod_eq_of_lt hm]
  have htest : (m &&& (1 <<< (w - 1)) ≠ 0) ↔ 2 ^ (w - 1) ≤ m := by
    rw [Nat.shiftLeft_eq, one_mul, Nat.and_two_pow]
    have hdlt : m / 2 ^ (w - 1) < 2 := by
      apply Nat.div_lt_of_lt_mul
      calc m < 2 ^ w := hm
        _ = 2 ^ (w - 1) * 2 := by
          rw [← pow_succ]
          congr 1
          omega
    rw [Nat.testBit_to_div_mod, Nat.mod_eq_of_lt hdlt]
    have hiff : (m / 2 ^ (w - 1) = 1) ↔ 2 ^ (w - 1) ≤ m := by
      constructor
      · intro h1
        exact (Nat.one_le_div_iff (Nat.two_pow_pos _)).mp (by omega)
      · intro hle
        have h1 : 1 ≤ m / 2 ^ (w - 1) :=
          (Nat.one_le_div_iff (Nat.two_pow_pos _)).mpr hle
        omega
    constructor
    · intro hne
      apply hiff.mp
      by_contra hcon
      rw [decide_eq_false hcon] at hne
      simp at hne
    · intro hle
      rw [decide_eq_true (hiff.mpr hle)]
      simp
  unfold ebf32 bf_extract5
  rw [bf_mask5_eq, ← hwdef, ← hodef, hmk, hy]
  unfold bf_sign_bit_pos5
  rw [← hwdef]
  unfold signExtendToWidth
  rw [← hmdef]
  by_cases hsign : 2 ^ (w - 1) ≤ m
  · rw [if_pos (htest.mpr hsign), if_neg (by omega)]
    unfold bf_full_mask5
    rw [show (0xffffffff : Nat) = 2 ^ 32 - 1 by norm_num]
    have hpw : 2 ^ w = 2 * 2 ^ (w - 1) := by
      conv_lhs => rw [show w = w - 1 + 1 by omega]
      rw [pow_succ]
      ring
    have hr : m - 2 ^ (w - 1) < 2 ^ (w - 1) := by omega
    have hm_eq : m = 2 ^ (w - 1) + (m - 2 ^ (w - 1)) := by omega
    have h33 : 2 ^ (w - 1) * (2 ^ (33 - w) - 1) = 2 ^ 32 - 2 ^ (w - 1) := by
      rw [Nat.mul_sub_left_distrib, mul_one, ← pow_add,
        show w - 1 + (33 - w) = 32 by omega]
    have hple2 : 2 ^ w ≤ 2 ^ 32 := Nat.pow_le_pow_right (by norm_num) (by omega)
    have hT : m + (2 ^ 32 - 2 ^ w) =
        2 ^ (w - 1) * (2 ^ (33 - w) - 1) + (m - 2 ^ (w - 1)) := by
      omega
    rw [Nat.and_pow_two_sub_one_eq_mod, hT]
    apply Nat.eq_of_testBit_eq
    intro i
    rw [Nat.testBit_mul_pow_two_add _ hr i]
    simp only [Nat.testBit_mod_two_pow, Nat.testBit_or, Nat.testBit_shiftLeft,
      Nat.testBit_two_pow_sub_one]
    by_cases hi1 : i < w - 1
    · have hi32 : i < 32 := by omega
      have hile : ¬(w - 1 ≤ i) := by omega
      rw [if_pos hi1]
      simp [hi32, hile]
      conv_lhs => rw [hm_eq]
      rw [Nat.testBit_two_pow_add_gt hi1]
    · by_cases hi2 : i < 32
      · have ha : w - 1 ≤ i := by omega
        have hb : i - (w - 1) < 33 - w := by omega
        have hc : i - (w - 1) < 32 := by omega
        simp [hi1, hi2, ha, hb, hc]
      · simp [hi1, hi2, show ¬(i - (w - 1) < 33 - w) by omega]
  · rw [if_neg (fun hcon => hsign (htest.mp hcon)), if_pos (by omega)]

/-- C7 witness: the amended theorem at control word `0x0503` (offset 3,
width 5) and `x = 0x1F`, whose sign-extension is `0xFFFFFFFF`. -/
theorem c7_witness :
    ebf32 (mkbf32 0x1f 0x0503) 0x0503 = signExtendToWidth 0x1f (bf_ctrl_width5 0x0503) :=
  c7_bitfield_roundtrip_amended 0x1f 0x0503 (by decide)

end MRISC32

namespace MRISC32

theorem setReg_same (r : Nat → Nat) (i v : Nat) : setReg r i v i = v := by
  simp [setReg]

theorem setReg_ne (r : Nat → Nat) {i j : Nat} (v : Nat) (h : j ≠ i) : setReg r i v j = r j := by
  simp [setReg, h]

/-- The syscall dispatcher writes only R1 and R2: every other scalar
slot is unchanged by a successful call. -/
theorem syscalls_call_regs (o : host_oracle) (rn : Nat) (regs : Nat → Nat) (r : ram_t)
    (sys : sys_state) {q} (hc : syscalls_call o rn regs r sys = .ok q)
    (i : Nat) (h1 : i ≠ 1) (h2 : i ≠ 2) : q.1 i = regs i := by
  by_cases h15 : rn ≥ 15
  · unfold syscalls_call at hc
    rw [if_pos (by simpa [ROUTINE_LAST] using h15)] at hc
    injection hc with hq
    subst hq
    rfl
  · have hlt : rn < 15 := by omega
    interval_cases rn <;>
      simp only [syscalls_call, ROUTINE_LAST, ROUTINE_EXIT, ROUTINE_PUTCHAR, ROUTINE_GETCHAR,
        ROUTINE_CLOSE, ROUTINE_FSTAT, ROUTINE_ISATTY, ROUTINE_LINK, ROUTINE_LSEEK,
        ROUTINE_MKDIR, ROUTINE_OPEN, ROUTINE_READ, ROUTINE_STAT, ROUTINE_UNLINK,
        ROUTINE_WRITE, ROUTINE_GETTIMEMICROS, bind, Except.bind,
        if_true, if_false, reduceIte] at hc
    -- 0 EXIT
    case _ => injection hc with hq; subst hq; rfl
    -- 1 PUTCHAR
    case _ => injection hc with hq; subst hq; exact setReg_ne _ _ h1
    -- 2 GETCHAR
    case _ => injection hc with hq; subst hq; exact setReg_ne _ _ h1
    -- 3 CLOSE
    case _ => injection hc with hq; subst hq; exact setReg_ne _ _ h1
    -- 4 FSTAT
    case _ =>
      cases hst : stat_to_ram o r (regs 2) with
      | error f => rw [hst] at hc; cases hc
      | ok rr => rw [hst] at hc; injection hc with hq; subst hq; exact setReg_ne _ _ h1
    -- 5 ISATTY
    case _ => injection hc with hq; subst hq; exact setReg_ne _ _ h1
    -- 6 LINK
    case _ =>
      cases hp1 : path_to_host r (regs 1) with
      | error f => rw [hp1] at hc; cases hc
      | ok u1 =>
        rw [hp1] at hc
        cases hp2 : path_to_host r (regs 2) with
        | error f => rw [hp2] at hc; cases hc
        | ok u2 => rw [hp2] at hc; injection hc with hq; subst hq; exact setReg_ne _ _ h1
    -- 7 LSEEK
    case _ => injection hc with hq; subst hq; exact setReg_ne _ _ h1
    -- 8 MKDIR
    case _ =>
      cases hp1 : path_to_host r (regs 1) with
      | error f => rw [hp1] at hc; cases hc
      | ok u1 => rw [hp1] at hc; injection hc with hq; subst hq; exact setReg_ne _ _ h1
    -- 9 OPEN
    case _ =>
      cases hp1 : path_to_host r (regs 1) with
      | error f => rw [hp1] at hc; cases hc
      | ok u1 => rw [hp1] at hc; injection hc with hq; subst hq; exact setReg_ne _ _ h1
    -- 10 READ
    case _ =>
      cases hat : r.atAddr ((if ¬ r.valid_range (regs 2) (regs 3) then setReg regs 1 0xffffffff else regs) 2) with
      | error f => rw [hat] at hc; cases hc
      | ok b =>
        rw [hat] at hc; injection hc with hq; subst hq
        by_cases hv : r.valid_range (regs 2) (regs 3) <;>
          simp [hv, setReg, h1]
    -- 11 STAT
    case _ =>
      cases hp1 : path_to_host r (regs 1) with
      | error f => rw [hp1] at hc; cases hc
      | ok u1 =>
        rw [hp1] at hc
        cases hst : stat_to_ram o r (regs 2) with
        | error f => rw [hst] at hc; cases hc
        | ok rr => rw [hst] at hc; injection hc with hq; subst hq; exact setReg_ne _ _ h1
    -- 12 UNLINK
    case _ =>
      cases hp1 : path_to_host r (regs 1) with
      | error f => rw [hp1] at hc; cases hc
      | ok u1 => rw [hp1] at hc; injection hc with hq; subst hq; exact setReg_ne _ _ h1
    -- 13 WRITE
    case _ =>
      cases hat : r.atAddr ((if ¬ r.valid_range (regs 2) (regs 3) then setReg regs 1 0xffffffff else regs) 2) with
      | error f => rw [hat] at hc; cases hc
      | ok b =>
        rw [hat] at hc; injection hc with hq; subst hq
        by_cases hv : r.valid_range (regs 2) (regs 3) <;>
          simp [hv, setReg, h1]
    -- 14 GETTIMEMICROS
    case _ =>
      injection hc with hq; subst hq
      exact (setReg_ne _ _ h2).trans (setReg_ne _ _ h1)

end MRISC32

namespace MRISC32

/-- C4: the READ trap's failed range validation does not stop the
syscall.  With RAM of 4 KiB and a READ of 0x2000 bytes at buffer 0
(an invalid range), the dispatcher sets R1 := −1, then still invokes
the host read — with the file descriptor −1 read from the clobbered R1
— and overwrites R1 with the host result; and when the buffer pointer
itself lies outside RAM (second scenario), `m_ram.at(regs[2])` throws a
bounds fault that aborts the simulation instead of returning −1. -/
theorem c4_read_trap_bug :
    ((ramZero 0x1000).valid_range 0 0x2000 = false) ∧
    ((syscalls_call oracle0 ROUTINE_READ
        (fun j => if j = 2 then 0 else if j = 3 then 0x2000 else 0) (ramZero 0x1000)
        ⟨false, 0⟩).map (fun q => (q.1 1, q.2.2.2)) =
      .ok (0xffffffff, [host_call.readCall (-1) 0 0x2000])) ∧
    (faultOf (syscalls_call oracle0 ROUTINE_READ
        (fun j => if j = 2 then 0x2000 else if j = 3 then 4 else 0) (ramZero 0x1000)
        ⟨false, 0⟩) = some fault_t.bounds) := by
  refine ⟨by decide, rfl, by decide⟩

end MRISC32

namespace MRISC32

theorem cycleStep_ok_destruct (o : host_oracle) (exf : ExOracle) (mc : Int)
    (st : mach_state) (res : cycle_result) (hok : cycleStep o exf mc st = .ok res) :
    ∃ st1 log iword st3 lanes,
      trapStep o st = .ok (st1, log) ∧
      st1.ram.load32 (st1.regs REG_PC) = .ok iword ∧
      laneLoop exf mc (decodeInstr iword)
        (vecInitOf iword (branchStep st1.regs (st1.regs REG_PC) iword).2) 0
        (if (vecInitOf iword (branchStep st1.regs (st1.regs REG_PC) iword).2).is_vector_op then
          (vecInitOf iword (branchStep st1.regs (st1.regs REG_PC) iword).2).vector_len else 1)
        { st1 with
          fetched_instr_count := (st1.fetched_instr_count + 1) % (2 ^ 64)
          regs := (branchStep st1.regs (st1.regs REG_PC) iword).2 }
        = .ok (st3, lanes) ∧
      res = ⟨{ st3 with
          regs := setReg st3.regs REG_PC (branchStep st1.regs (st1.regs REG_PC) iword).1 },
        st1.regs REG_PC, iword, (branchStep st1.regs (st1.regs REG_PC) iword).1, lanes, log⟩ := by
  unfold cycleStep at hok
  simp only [bind, Except.bind] at hok
  cases htr : trapStep o st with
  | error f => rw [htr] at hok; simp at hok
  | ok p =>
    obtain ⟨st1, log⟩ := p
    rw [htr] at hok
    simp only [] at hok
    cases hld : st1.ram.load32 (st1.regs REG_PC) with
    | error f => rw [hld] at hok; simp at hok
    | ok iword =>
      rw [hld] at hok
      simp only [] at hok
      cases hll : laneLoop exf mc (decodeInstr iword)
          (vecInitOf iword (branchStep st1.regs (st1.regs REG_PC) iword).2) 0
          (if (vecInitOf iword (branchStep st1.regs (st1.regs REG_PC) iword).2).is_vector_op then
            (vecInitOf iword (branchStep st1.regs (st1.regs REG_PC) iword).2).vector_len else 1)
          ({ st1 with
            fetched_instr_count := (st1.fetched_instr_count + 1) % (2 ^ 64)
            regs := (branchStep st1.regs (st1.regs REG_PC) iword).2 }) with
      | error f => rw [hll] at hok; simp at hok
      | ok p3 =>
        obtain ⟨st3, lanes⟩ := p3
        rw [hll] at hok
        simp only [pure, Except.pure] at hok
        injection hok with hres
        exact ⟨st1, log, iword, st3, lanes, rfl, hld, hll, hres.symm⟩

end MRISC32

namespace MRISC32

/-- Outside the trap band the trap check is the identity. -/
theorem trapStep_not_band (o : host_oracle) (st : mach_state)
    (h : ¬ (st.regs REG_PC &&& 0xffff0000 = 0xffff0000)) :
    trapStep o st = .ok (st, []) := by
  unfold trapStep
  rw [if_neg (by simpa using h)]


/-- Destructuring principle for a successful `Except` bind. -/
theorem except_bind_ok {ε α β : Type} {e : Except ε α} {f : α → Except ε β} {b : β}
    (h : e >>= f = .ok b) : ∃ a, e = .ok a ∧ f a = .ok b := by
  cases e with
  | error err => exact absurd h (by simp [Bind.bind, Except.bind])
  | ok a => exact ⟨a, rfl, by simpa [Bind.bind, Except.bind] using h⟩

/-- The trap check writes only R1, R2 and the PC slot. -/
theorem trapStep_regs (o : host_oracle) (st st1 : mach_state) (log : List host_call)
    (h : trapStep o st = .ok (st1, log)) (i : Nat)
    (h1 : i ≠ 1) (h2 : i ≠ 2) (h32 : i ≠ 32) : st1.regs i = st.regs i := by
  unfold trapStep at h
  by_cases hb : ((st.regs REG_PC &&& 0xffff0000 == 0xffff0000) = true)
  · rw [if_pos hb] at h
    obtain ⟨q, hc, h2q⟩ := except_bind_ok h
    obtain ⟨regs1, ram1, sys1, lg⟩ := q
    injection h2q with h'
    injection h' with hst hlog
    subst hst
    show setReg regs1 REG_PC (regs1 REG_LR) i = st.regs i
    rw [setReg_ne _ _ (show i ≠ REG_PC from h32)]
    exact syscalls_call_regs o _ st.regs st.ram st.sys hc i h1 h2
  · rw [if_neg hb] at h
    injection h with h'
    injection h' with hst hlog
    subst hst
    rfl

/-- Inside the trap band the post-trap PC is the (pre-trap) LR. -/
theorem trapStep_pc (o : host_oracle) (st st1 : mach_state) (log : List host_call)
    (h : trapStep o st = .ok (st1, log))
    (hb : st.regs REG_PC &&& 0xffff0000 = 0xffff0000) :
    st1.regs REG_PC = st.regs REG_LR := by
  unfold trapStep at h
  rw [if_pos (by simpa using hb)] at h
  obtain ⟨q, hc, h2q⟩ := except_bind_ok h
  obtain ⟨regs1, ram1, sys1, lg⟩ := q
  injection h2q with h'
  injection h' with hst hlog
  subst hst
  show setReg regs1 REG_PC (regs1 REG_LR) REG_PC = st.regs REG_LR
  rw [setReg_same]
  exact syscalls_call_regs o _ st.regs st.ram st.sys hc REG_LR (by decide) (by decide)

/-- The trap dispatch and its log, inside the band. -/
theorem trapStep_band_log (o : host_oracle) (st st1 : mach_state) (log : List host_call)
    (h : trapStep o st = .ok (st1, log))
    (hb : st.regs REG_PC &&& 0xffff0000 = 0xffff0000) :
    ∃ q, syscalls_call o (((st.regs REG_PC % 2 ^ 32 + 2 ^ 32 - 0xffff0000) % 2 ^ 32) >>> 2)
        st.regs st.ram st.sys = .ok q ∧ log = q.2.2.2 := by
  unfold trapStep at h
  rw [if_pos (by simpa using hb)] at h
  obtain ⟨q, hc, h2q⟩ := except_bind_ok h
  obtain ⟨regs1, ram1, sys1, lg⟩ := q
  injection h2q with h'
  injection h' with hst hlog
  exact ⟨(regs1, ram1, sys1, lg), hc, hlog.symm⟩

/-- The branch block writes only the LR slot. -/
theorem branchStep_regs (regs : Nat → Nat) (pc iword i : Nat) (h30 : i ≠ 30) :
    (branchStep regs pc iword).2 i = regs i := by
  unfold branchStep
  by_cases hbcc : is_bcc iword = true
  · simp [hbcc]
  · by_cases hj : is_j iword = true
    · by_cases hs : is_subroutine_branch iword = true
      · simp [hbcc, hj, hs, setReg, REG_LR, h30]
      · simp [hbcc, hj, hs]
    · simp [hbcc, hj]

end MRISC32

namespace MRISC32

/-- One lane writes the scalar file only at the destination register
(and never when the destination is R0). -/
theorem laneStep_regs (exf : ExOracle) (d : decode_t) (v : vector_state_t) (k : Nat)
    (st st1 : mach_state) (lr : lane_rec) (h : laneStep exf d v k st = .ok (st1, lr))
    (i : Nat) (hcase : i = 0 ∨ d.dst_reg.no ≠ i) : st1.regs i = st.regs i := by
  unfold laneStep at h
  obtain ⟨p, hm, h2⟩ := except_bind_ok h
  obtain ⟨ram1, mem_result⟩ := p
  simp only [pure, Except.pure] at h2
  injection h2 with h3
  injection h3 with hst hlr
  subst hst
  by_cases hz : d.dst_reg.no ≠ REG_Z
  · by_cases hv : d.dst_reg.is_vector = true
    · simp [hz, hv]
    · simp only [if_pos hz, hv, if_false, Bool.false_eq_true]
      rcases hcase with h0 | hne
      · subst h0
        exact setReg_ne _ _ (fun hc => hz hc.symm)
      · exact setReg_ne _ _ (fun hc => hne hc.symm)
  · simp [hz]

/-- One lane writes the vector file only at lane index `k`. -/
theorem laneStep_vregs (exf : ExOracle) (d : decode_t) (v : vector_state_t) (k : Nat)
    (st st1 : mach_state) (lr : lane_rec) (h : laneStep exf d v k st = .ok (st1, lr))
    (a b : Nat) (hb : b ≠ k) : st1.vregs a b = st.vregs a b := by
  unfold laneStep at h
  obtain ⟨p, hm, h2⟩ := except_bind_ok h
  obtain ⟨ram1, mem_result⟩ := p
  simp only [pure, Except.pure] at h2
  injection h2 with h3
  injection h3 with hst hlr
  subst hst
  by_cases hz : d.dst_reg.no ≠ REG_Z
  · by_cases hv : d.dst_reg.is_vector = true
    · simp only [if_pos hz, hv, if_true]
      show setVReg st.vregs d.dst_reg.no k _ a b = st.vregs a b
      simp [setVReg, hb]
    · simp [hz, hv]
  · simp [hz]

/-- The MEM stage of a non-memory operation is a no-op. -/
theorem memStage_none (r : ram_t) (x y : Nat) : memStage r MEM_OP_NONE x y = .ok (r, 0) := by
  unfold memStage
  norm_num [MEM_OP_NONE, MEM_OP_LOAD8, MEM_OP_LOADU8, MEM_OP_LOAD16, MEM_OP_LOADU16,
    MEM_OP_LOAD32, MEM_OP_LDEA, MEM_OP_STORE8, MEM_OP_STORE16, MEM_OP_STORE32]
  rfl

/-- A lane of a non-memory instruction never faults. -/
theorem laneStep_nonmem_ok (exf : ExOracle) (d : decode_t) (v : vector_state_t) (k : Nat)
    (st : mach_state) (hmem : d.mem_op = MEM_OP_NONE) :
    isOkAccess (laneStep exf d v k st) = true := by
  unfold laneStep
  simp [hmem, memStage_none, Bind.bind, Except.bind, pure, Except.pure, isOkAccess]

/-- The operand-A value of a lane record: for a vector operand under
folding it is element `vector_len + k` of the source vector register in
the state at lane entry. -/
theorem laneStep_src_a (exf : ExOracle) (d : decode_t) (v : vector_state_t) (k : Nat)
    (st st1 : mach_state) (lr : lane_rec) (h : laneStep exf d v k st = .ok (st1, lr))
    (hva : d.src_reg_a.is_vector = true) (hfold : v.folding = true) :
    lr.src_a = st.vregs d.src_reg_a.no (v.vector_len + k) := by
  unfold laneStep at h
  obtain ⟨p, hm, h2⟩ := except_bind_ok h
  obtain ⟨ram1, mem_result⟩ := p
  simp only [pure, Except.pure] at h2
  injection h2 with h3
  injection h3 with hst hlr
  rw [← hlr]
  simp [hva, hfold]

end MRISC32

namespace MRISC32

/-- The vector loop writes the scalar file only at the destination
register (never when the destination is R0). -/
theorem laneLoop_regs (exf : ExOracle) (mc : Int) (d : decode_t) :
    ∀ (n : Nat) (v : vector_state_t) (k : Nat) (st st1 : mach_state) (recs : List lane_rec),
    laneLoop exf mc d v k n st = .ok (st1, recs) →
    ∀ i, (i = 0 ∨ d.dst_reg.no ≠ i) → st1.regs i = st.regs i := by
  intro n
  induction n with
  | zero =>
    intro v k st st1 recs h i hc
    unfold laneLoop at h
    injection h with h'
    injection h' with h1 h2
    subst h1
    rfl
  | succ n ih =>
    intro v k st st1 recs h i hc
    unfold laneLoop at h
    obtain ⟨p, hls, h2⟩ := except_bind_ok h
    obtain ⟨stA, lr⟩ := p
    dsimp only [] at h2
    split at h2
    · -- max-cycles break
      injection h2 with h3
      injection h3 with hst hrecs
      subst hst
      exact laneStep_regs exf d v k st stA lr hls i hc
    · split at h2
      · -- recursive call succeeded
      
        rename_i st4 recs4 heq
        injection h2 with h3
        injection h3 with hst hrecs
        subst hst
        have hrec := ih _ _ _ _ _ heq i hc
        have hstep := laneStep_regs exf d v k st stA lr hls i hc
        exact hrec.trans hstep
      · exact absurd h2 (by simp)

end MRISC32

namespace MRISC32

/-- The vector loop of a folding non-memory instruction with no cycle
limit executes all its lanes and reads operand A of lane `k + j` from
element `vector_len + k + j` of the source vector register as it was at
loop entry. -/
theorem laneLoop_fold_map (exf : ExOracle) (mc : Int) (d : decode_t)
    (hmem : d.mem_op = MEM_OP_NONE) (hva : d.src_reg_a.is_vector = true) (hmc : mc < 0) :
    ∀ (n : Nat) (v : vector_state_t) (_hfold : v.folding = true) (k : Nat) (st : mach_state),
    (laneLoop exf mc d v k n st).map (fun p => p.2.map lane_rec.src_a) =
      .ok ((List.range n).map (fun j => st.vregs d.src_reg_a.no (v.vector_len + (k + j)))) := by
  intro n
  induction n with
  | zero =>
    intro v hfold k st
    unfold laneLoop
    simp [Except.map]
  | succ n ih =>
    intro v hfold k st
    cases hls : laneStep exf d v k st with
    | error f =>
      have hok := laneStep_nonmem_ok exf d v k st hmem
      rw [hls] at hok
      simp [isOkAccess] at hok
    | ok p =>
      obtain ⟨stA, lr⟩ := p
      unfold laneLoop
      rw [hls]
      simp only [Bind.bind, Except.bind]
      rw [if_neg (fun hand => absurd hand.1 (by omega))]
      have hA := laneStep_src_a exf d v k st stA lr hls hva hfold
      split
      · rename_i st4 recs4 heq
        have hih := ih { v with addr_offset := (v.addr_offset + v.stride) % 2 ^ 32 } hfold
          (k + 1)
          { regs := stA.regs, vregs := stA.vregs,
            ram := update_mc1_clkcnt stA.ram ((stA.total_cycle_count + 1) % 2 ^ 64),
            sys := stA.sys, total_cycle_count := (stA.total_cycle_count + 1) % 2 ^ 64,
            fetched_instr_count := stA.fetched_instr_count,
            terminate_requested := stA.terminate_requested }
        rw [heq] at hih
        simp only [Except.map] at hih ⊢
        injection hih with hih'
        refine congrArg Except.ok ?_
        rw [List.range_succ_eq_map, List.map_cons, List.map_cons, hih', hA]
        refine congrArg₂ List.cons (by rw [Nat.add_zero]) ?_
        rw [List.map_map]
        apply List.map_congr_left
        intro j hj
        have hv := laneStep_vregs exf d v k st stA lr hls d.src_reg_a.no
          (v.vector_len + (k + 1 + j)) (by omega)
        show stA.vregs d.src_reg_a.no (v.vector_len + (k + 1 + j)) = _
        rw [hv]
        simp only [Function.comp]
        congr 1
        omega
      · rename_i f heq
        have hih := ih { v with addr_offset := (v.addr_offset + v.stride) % 2 ^ 32 } hfold
          (k + 1)
          { regs := stA.regs, vregs := stA.vregs,
            ram := update_mc1_clkcnt stA.ram ((stA.total_cycle_count + 1) % 2 ^ 64),
            sys := stA.sys, total_cycle_count := (stA.total_cycle_count + 1) % 2 ^ 64,
            fetched_instr_count := stA.fetched_instr_count,
            terminate_requested := stA.terminate_requested }
        rw [heq] at hih
        simp [Except.map] at hih

end MRISC32

namespace MRISC32

/-- C2: scalar register R0 stays 0 across every successful interpreter
cycle (the WB stage suppresses writes whose destination is R0, and no
other path writes it); the WB destination register index is at most 31,
so WB can never address the PC slot R32; and the PC slot after the
cycle equals the branch-logic `next_pc` — the only other PC write being
the trap-return `PC := LR` inside the trap check.  Holds for every host
oracle and every EX-kernel oracle. -/
theorem c2_r0_pc_invariants (o : host_oracle) (exf : ExOracle) (mc : Int)
    (st : mach_state) (res : cycle_result) (h0 : st.regs 0 = 0)
    (hok : cycleStep o exf mc st = .ok res) :
    res.st.regs 0 = 0 ∧ res.st.regs 32 = res.next_pc ∧ (∀ w, dst_reg_no w ≤ 31) := by
  obtain ⟨st1, log, iword, st3, lanes, htr, hld, hll, hres⟩ :=
    cycleStep_ok_destruct o exf mc st res hok
  subst hres
  refine ⟨?_, ?_, ?_⟩
  · show setReg st3.regs REG_PC (branchStep st1.regs (st1.regs REG_PC) iword).1 0 = 0
    rw [setReg_ne _ _ (by decide)]
    have h3 := laneLoop_regs exf mc (decodeInstr iword) _ _ _ _ _ _ hll 0 (Or.inl rfl)
    rw [h3]
    show (branchStep st1.regs (st1.regs REG_PC) iword).2 0 = 0
    rw [branchStep_regs _ _ _ _ (by decide)]
    rw [trapStep_regs o st st1 log htr 0 (by decide) (by decide) (by decide)]
    exact h0
  · show setReg st3.regs REG_PC (branchStep st1.regs (st1.regs REG_PC) iword).1 32 =
      (branchStep st1.regs (st1.regs REG_PC) iword).1
    exact setReg_same _ _ _
  · intro w
    unfold dst_reg_no reg1of
    by_cases hd : reg1_is_dst w = true
    · rw [if_pos hd]
      exact Nat.and_le_right
    · rw [if_neg hd]
      decide

/-- C10: whenever a cycle starts with the PC anywhere in the top 64 KiB
band, the interpreter dispatches the simulator routine with index
`(PC − 0xFFFF0000) >> 2` instead of fetching from that address —
out-of-range indices (≥ LAST_ = 15, modelled from the spec) leave
registers, RAM and syscall state untouched — and the instruction fetch
of the cycle happens at the value of LR, which replaced the PC. -/
theorem c10_trap_window (o : host_oracle) (exf : ExOracle) (mc : Int)
    (st : mach_state) (res : cycle_result)
    (hband : st.regs REG_PC &&& 0xffff0000 = 0xffff0000)
    (hok : cycleStep o exf mc st = .ok res) :
    (∀ n, ROUTINE_LAST ≤ n →
      syscalls_call o n st.regs st.ram st.sys = .ok (st.regs, st.ram, st.sys, [])) ∧
    res.fetch_addr = st.regs REG_LR ∧
    (∃ q, syscalls_call o
        (((st.regs REG_PC % 2 ^ 32 + 2 ^ 32 - 0xffff0000) % 2 ^ 32) >>> 2)
        st.regs st.ram st.sys = .ok q ∧ res.host_log = q.2.2.2) := by
  obtain ⟨st1, log, iword, st3, lanes, htr, hld, hll, hres⟩ :=
    cycleStep_ok_destruct o exf mc st res hok
  subst hres
  refine ⟨?_, ?_, ?_⟩
  · intro n hn
    unfold syscalls_call
    rw [if_pos hn]
  · exact trapStep_pc o st st1 log htr hband
  · exact trapStep_band_log o st st1 log htr hband

/-- C1 (amended): a folding-mode vector instruction with operand A in a
vector register (a non-memory instruction), run without a cycle limit,
executes its vector loop exactly ⌊used/2⌋ times where
`used = min(VL, N)`, and iteration `i` reads operand A from element
`⌊used/2⌋ + i` — not `used + i` — of the source vector register. -/
theorem c1_folding_amended (o : host_oracle) (exf : ExOracle) (mc : Int)
    (st : mach_state) (res : cycle_result) (iword : Nat)
    (hnoband : ¬(st.regs REG_PC &&& 0xffff0000 = 0xffff0000))
    (hfetch : st.ram.load32 (st.regs REG_PC) = .ok iword)
    (hvec : is_vector_op iword = true) (hfold : is_folding_vector_op iword = true)
    (hmem : is_mem_op iword = false) (hmc : mc < 0)
    (hok : cycleStep o exf mc st = .ok res) :
    res.lanes.length = min (st.regs REG_VL) NUM_VECTOR_ELEMENTS / 2 ∧
    res.lanes.map lane_rec.src_a =
      (List.range (min (st.regs REG_VL) NUM_VECTOR_ELEMENTS / 2)).map
        (fun i => st.vregs (decodeInstr iword).src_reg_a.no
          (min (st.regs REG_VL) NUM_VECTOR_ELEMENTS / 2 + i)) := by
  obtain ⟨st1, log, iw2, st3, lanes, htr, hld, hll, hres⟩ :=
    cycleStep_ok_destruct o exf mc st res hok
  rw [trapStep_not_band o st hnoband] at htr
  injection htr with htr'
  injection htr' with hst1 hlog
  subst hst1
  have hiw : iw2 = iword := by
    have := hfetch.symm.trans hld
    injection this with h'
    exact h'.symm
  subst hiw
  have hda : (decodeInstr iw2).src_reg_a.is_vector = true := by
    simp [decodeInstr, hvec, hmem]
  have hdm : (decodeInstr iw2).mem_op = MEM_OP_NONE := by
    simp [decodeInstr, mem_op_of, hmem]
  have hvlr : (branchStep st.regs (st.regs REG_PC) iw2).2 REG_VL = st.regs REG_VL :=
    branchStep_regs _ _ _ _ (by decide)
  have hvio : (vecInitOf iw2 (branchStep st.regs (st.regs REG_PC) iw2).2).is_vector_op
      = true := by
    simp [vecInitOf, hvec]
  have hvf : (vecInitOf iw2 (branchStep st.regs (st.regs REG_PC) iw2).2).folding = true := by
    simp [vecInitOf, hvec, hfold]
  have hvl : (vecInitOf iw2 (branchStep st.regs (st.regs REG_PC) iw2).2).vector_len
      = min (st.regs REG_VL) NUM_VECTOR_ELEMENTS / 2 := by
    simp only [vecInitOf, hvec, if_true, actual_vector_len, hfold, hvlr]
    rw [Nat.shiftRight_eq_div_pow]
  have hmap := laneLoop_fold_map exf mc (decodeInstr iw2) hdm hda hmc
    (if (vecInitOf iw2 (branchStep st.regs (st.regs REG_PC) iw2).2).is_vector_op then
      (vecInitOf iw2 (branchStep st.regs (st.regs REG_PC) iw2).2).vector_len else 1)
    (vecInitOf iw2 (branchStep st.regs (st.regs REG_PC) iw2).2) hvf 0
    { st with
      fetched_instr_count := (st.fetched_instr_count + 1) % (2 ^ 64)
      regs := (branchStep st.regs (st.regs REG_PC) iw2).2 }
  rw [hll] at hmap
  simp only [Except.map] at hmap
  injection hmap with hmap'
  subst hres
  constructor
  · have hlen := congrArg List.length hmap'
    simp only [List.length_map, List.length_range] at hlen
    rw [hlen, if_pos hvio, hvl]
  · show lanes.map lane_rec.src_a = _
    rw [hmap']
    rw [if_pos hvio, hvl]
    apply List.map_congr_left
    intro j hj
    show st.vregs (decodeInstr iw2).src_reg_a.no _ = _
    congr 1
    omega

end MRISC32

namespace MRISC32

/-- Concrete instance of the R0 / PC invariants: one cycle of the
zeroed machine. -/
theorem c2_witness :
    stZero.regs 0 = 0 ∧
    ∃ res, cycleStep oracle0 exf0 (-1) stZero = Except.ok res ∧
      res.st.regs 0 = 0 ∧ res.st.regs 32 = res.next_pc ∧ dst_reg_no 0xe2345678 ≤ 31 := by
  refine ⟨rfl, ?_⟩
  cases hE : cycleStep oracle0 exf0 (-1) stZero with
  | error f =>
    have hA : isOkAccess (cycleStep oracle0 exf0 (-1) stZero) = true := by decide
    rw [hE] at hA
    simp [isOkAccess] at hA
  | ok r =>
    have h := c2_r0_pc_invariants oracle0 exf0 (-1) stZero r rfl hE
    exact ⟨r, rfl, h.1, h.2.1, h.2.2 0xe2345678⟩

/-- Concrete instance of the trap-window behaviour: PC = 0xFFFF003C
(routine index 15, one past the last routine), LR = 0x100. -/
theorem c10_witness :
    stTrap.regs REG_PC &&& 0xffff0000 = 0xffff0000 ∧
    ∃ res, cycleStep oracle0 exf0 (-1) stTrap = Except.ok res ∧
      syscalls_call oracle0 15 stTrap.regs stTrap.ram stTrap.sys
        = .ok (stTrap.regs, stTrap.ram, stTrap.sys, []) ∧
      res.fetch_addr = stTrap.regs REG_LR := by
  refine ⟨by decide, ?_⟩
  cases hE : cycleStep oracle0 exf0 (-1) stTrap with
  | error f =>
    have hA : isOkAccess (cycleStep oracle0 exf0 (-1) stTrap) = true := by decide
    rw [hE] at hA
    simp [isOkAccess] at hA
  | ok r =>
    have h := c10_trap_window oracle0 exf0 (-1) stTrap r (by decide) hE
    exact ⟨r, rfl, h.1 15 (by decide), h.2.1⟩

/-- Concrete instance of the amended folding semantics: the folding ADD
at `stFold` runs 2 = ⌊4/2⌋ lanes and lane 0 reads V2[2]. -/
theorem c1_witness :
    ¬(stFold.regs REG_PC &&& 0xffff0000 = 0xffff0000) ∧
    stFold.ram.load32 (stFold.regs REG_PC) = .ok IWORD_FOLD_ADD ∧
    is_vector_op IWORD_FOLD_ADD = true ∧
    is_folding_vector_op IWORD_FOLD_ADD = true ∧
    is_mem_op IWORD_FOLD_ADD = false ∧
    ∃ res, cycleStep oracle0 exf0 (-1) stFold = Except.ok res ∧
      res.lanes.length = min (stFold.regs REG_VL) NUM_VECTOR_ELEMENTS / 2 ∧
      res.lanes.map lane_rec.src_a =
        (List.range (min (stFold.regs REG_VL) NUM_VECTOR_ELEMENTS / 2)).map
          (fun i => stFold.vregs (decodeInstr IWORD_FOLD_ADD).src_reg_a.no
            (min (stFold.regs REG_VL) NUM_VECTOR_ELEMENTS / 2 + i)) := by
  refine ⟨by decide, rfl, rfl, rfl, rfl, ?_⟩
  cases hE : cycleStep oracle0 exf0 (-1) stFold with
  | error f =>
    have hA : isOkAccess (cycleStep oracle0 exf0 (-1) stFold) = true := by decide
    rw [hE] at hA
    simp [isOkAccess] at hA
  | ok r =>
    exact ⟨r, rfl, c1_folding_amended oracle0 exf0 (-1) stFold r IWORD_FOLD_ADD
      (by decide) rfl rfl rfl rfl (by decide) hE⟩

/-- C1, counterexample to the claim as stated: at `stFold` the used
vector length is min(VL, 16) = 4, so the claim predicts that lane 0
reads element 4 + 0 = 4 of the A source register, which holds 0xBB; the
interpreter actually reads element ⌊4/2⌋ + 0 = 2, which holds 0xAA. -/
theorem c1_claim_counterexample :
    (cycleStep oracle0 exf0 (-1) stFold).map (fun res => res.lanes.map lane_rec.src_a)
      = .ok [0xAA, 0] ∧
    min (stFold.regs REG_VL) NUM_VECTOR_ELEMENTS = 4 ∧
    stFold.vregs (decodeInstr IWORD_FOLD_ADD).src_reg_a.no (4 + 0) = 0xBB ∧
    (0xBB : Nat) ≠ 0xAA := by
  refine ⟨rfl, by decide, by decide, by decide⟩

end MRISC32
